import Mathlib

/-!
Verification of the aircraft-web ECS core.

A shallow embedding, in Lean 4, of the entity-component-system core of the
repository (`src/core/ecs/Entity.ts`, the `Component` base class,
`src/core/ecs/System.ts` which also contains the `World` class,
`src/components/TransformComponent.ts`, `src/components/ColliderComponent.ts`
and `src/systems/CollisionSystem.ts`), together with theorems settling the
frozen specification claims.

Conventions of the embedding:
* JavaScript numbers are modelled as `ℚ` (all arithmetic appearing in the
  embedded code paths is exact on the inputs considered); `Math.sqrt` is
  modelled as `Real.sqrt` on the cast to `ℝ`, with decidability recovered
  through a proved squared-comparison equivalence.
* A JavaScript `Map` is modelled as an association list in insertion order:
  `Map.set` overwrites in place when the key is present and appends
  otherwise; `Map.delete` removes the unique entry of the key.
* A JavaScript `Set` (of strings) is modelled as an insertion-ordered
  duplicate-free list: `Set.add` appends only when absent.
* Methods that mutate `this` become functions returning the updated value.
* Event/listener fan-out: the source dispatches each event to every
  registered listener synchronously; we model the dispatched event stream
  (resp. the stream of lifecycle notifications, one per entity/listener
  pair), which is the observable the claims speak about.
-/

namespace AircraftWeb

/-- JS `Map.set` on an insertion-ordered association list: overwrite in place
when the key is present, append otherwise. -/
def mapSet {α : Type} : List (String × α) → String → α → List (String × α)
  | [], k, v => [(k, v)]
  | (k', v') :: rest, k, v =>
      if k' = k then (k, v) :: rest else (k', v') :: mapSet rest k v

/-- JS `Map.get`: first (and only) entry of the key. -/
def mapGet {α : Type} : List (String × α) → String → Option α
  | [], _ => none
  | (k', v') :: rest, k => if k' = k then some v' else mapGet rest k

/-- JS `Map.delete`: remove the entry of the key. -/
def mapDelete {α : Type} : List (String × α) → String → List (String × α)
  | [], _ => []
  | (k', v') :: rest, k =>
      if k' = k then rest else (k', v') :: mapDelete rest k

/-- JS `Set.add` on an insertion-ordered duplicate-free list. -/
def setAdd (l : List String) (x : String) : List String :=
  if x ∈ l then l else l ++ [x]

/-- Models `Array.prototype.splice(index, 0, x)`: insert at an index (clamped to the
end, as in JS). -/
def insertAt {α : Type} : List α → Nat → α → List α
  | l, 0, s => s :: l
  | [], _ + 1, s => [s]
  | x :: xs, n + 1, s => x :: insertAt xs n s

end AircraftWeb

namespace AircraftWeb.Col

/-! ## Collision geometry

Embedded from `src/components/TransformComponent.ts`,
`src/components/ColliderComponent.ts` and
`src/systems/CollisionSystem.ts`. -/

/-- Models `ColliderType` enum of `ColliderComponent.ts`. -/
inductive ColliderType where
  | circle
  | rectangle
deriving DecidableEq, Repr

/-- The fields of `TransformComponent` read anywhere in the collision path
(plus `rotation`/`scaleX`/`scaleY`, carried to state independence claims). -/
structure Transform where
  x : ℚ
  y : ℚ
  rotation : ℚ
  scaleX : ℚ
  scaleY : ℚ
deriving DecidableEq, Repr

/-- The data fields of `ColliderComponent`. -/
structure Collider where
  ctype : ColliderType
  width : ℚ
  height : ℚ
  radius : ℚ
  offsetX : ℚ
  offsetY : ℚ
  isTrigger : Bool
  collisionLayer : ℕ
  collisionMask : ℕ
deriving DecidableEq, Repr

/-- Models `new ColliderComponent(type, width, height, radius, ...)` with the source's
default arguments filled in. -/
def Collider.mk' (ctype : ColliderType) (width : ℚ := 32) (height : ℚ := 32)
    (radius : ℚ := 16) (offsetX : ℚ := 0) (offsetY : ℚ := 0)
    (isTrigger : Bool := false) (collisionLayer : ℕ := 1)
    (collisionMask : ℕ := 0xFFFFFFFF) : Collider :=
  ⟨ctype, width, height, radius, offsetX, offsetY, isTrigger, collisionLayer,
    collisionMask⟩

/-- Models `ColliderComponent.canCollideWith(layer)`:
`(this.collisionMask & layer) !== 0`. -/
def Collider.canCollideWith (c : Collider) (layer : ℕ) : Prop :=
  Nat.land c.collisionMask layer ≠ 0

instance (c : Collider) (layer : ℕ) : Decidable (c.canCollideWith layer) := by
  unfold Collider.canCollideWith
  infer_instance

/-- Axis-aligned bounds record returned by `ColliderComponent.getBounds`. -/
structure Bounds where
  x : ℚ
  y : ℚ
  width : ℚ
  height : ℚ
deriving DecidableEq, Repr

/-- Models `ColliderComponent.getBounds(transform)`: transform position plus local
offset; circle bounds are the enclosing square, rectangle bounds use the
stored width/height.  Rotation and scale of the transform are not read. -/
def Collider.getBounds (c : Collider) (t : Transform) : Bounds :=
  let x := t.x + c.offsetX
  let y := t.y + c.offsetY
  match c.ctype with
  | .circle =>
      ⟨x - c.radius, y - c.radius, c.radius * 2, c.radius * 2⟩
  | .rectangle =>
      ⟨x, y, c.width, c.height⟩

/-- Models `CollisionSystem.checkCircleCircleCollision`: Euclidean distance between
offset centers strictly below the sum of the radii (`Math.sqrt` modelled as
`Real.sqrt` on the cast of the exact rational square distance). -/
def checkCircleCircleCollision (tA : Transform) (cA : Collider)
    (tB : Transform) (cB : Collider) : Prop :=
  let x1 := tA.x + cA.offsetX
  let y1 := tA.y + cA.offsetY
  let x2 := tB.x + cB.offsetX
  let y2 := tB.y + cB.offsetY
  let dx := x2 - x1
  let dy := y2 - y1
  Real.sqrt (((dx * dx + dy * dy : ℚ) : ℝ)) < ((cA.radius + cB.radius : ℚ) : ℝ)

/-- Models `CollisionSystem.checkRectRectCollision`: strict overlap of the two
axis-aligned bounds on both axes. -/
def checkRectRectCollision (tA : Transform) (cA : Collider)
    (tB : Transform) (cB : Collider) : Prop :=
  let boundsA := cA.getBounds tA
  let boundsB := cB.getBounds tB
  boundsA.x < boundsB.x + boundsB.width ∧
  boundsA.x + boundsA.width > boundsB.x ∧
  boundsA.y < boundsB.y + boundsB.height ∧
  boundsA.y + boundsA.height > boundsB.y

instance (tA : Transform) (cA : Collider) (tB : Transform) (cB : Collider) :
    Decidable (checkRectRectCollision tA cA tB cB) := by
  unfold checkRectRectCollision
  infer_instance

/-- Models `CollisionSystem.checkCircleRectCollision`: clamp the circle center onto
the rectangle bounds and compare the distance to the clamped point with the
radius, strictly. -/
def checkCircleRectCollision (circleTransform : Transform)
    (circleCollider : Collider) (rectTransform : Transform)
    (rectCollider : Collider) : Prop :=
  let circleX := circleTransform.x + circleCollider.offsetX
  let circleY := circleTransform.y + circleCollider.offsetY
  let rectBounds := rectCollider.getBounds rectTransform
  let closestX := max rectBounds.x (min circleX (rectBounds.x + rectBounds.width))
  let closestY := max rectBounds.y (min circleY (rectBounds.y + rectBounds.height))
  let dx := closestX - circleX
  let dy := closestY - circleY
  Real.sqrt (((dx * dx + dy * dy : ℚ) : ℝ)) < ((circleCollider.radius : ℚ) : ℝ)

/-- Strict comparison of `Real.sqrt` of a nonnegative rational against a
rational bound, reduced to an exact rational comparison. -/
theorem sqrt_lt_iff_sq (q s : ℚ) (_hq : 0 ≤ q) :
    Real.sqrt (q : ℝ) < (s : ℝ) ↔ 0 < s ∧ q < s * s := by
  rcases le_or_lt s 0 with h | h
  · constructor
    · intro hlt
      exact absurd (lt_of_le_of_lt (Real.sqrt_nonneg _) hlt)
        (by exact_mod_cast not_lt.2 h)
    · rintro ⟨hs, -⟩
      exact absurd hs (not_lt.2 h)
  · rw [Real.sqrt_lt' (by exact_mod_cast h)]
    have : ((s : ℝ)) ^ 2 = ((s * s : ℚ) : ℝ) := by push_cast; ring
    rw [this]
    constructor
    · intro hlt
      exact ⟨h, by exact_mod_cast hlt⟩
    · rintro ⟨-, hlt⟩
      exact_mod_cast hlt

theorem checkCircleCircle_iff_sq (tA : Transform) (cA : Collider)
    (tB : Transform) (cB : Collider) :
    checkCircleCircleCollision tA cA tB cB ↔
      (0 < cA.radius + cB.radius ∧
        ((tB.x + cB.offsetX) - (tA.x + cA.offsetX)) *
            ((tB.x + cB.offsetX) - (tA.x + cA.offsetX)) +
          ((tB.y + cB.offsetY) - (tA.y + cA.offsetY)) *
            ((tB.y + cB.offsetY) - (tA.y + cA.offsetY)) <
          (cA.radius + cB.radius) * (cA.radius + cB.radius)) := by
  unfold checkCircleCircleCollision
  exact sqrt_lt_iff_sq _ _
    (add_nonneg (mul_self_nonneg _) (mul_self_nonneg _))

instance (tA : Transform) (cA : Collider) (tB : Transform) (cB : Collider) :
    Decidable (checkCircleCircleCollision tA cA tB cB) :=
  decidable_of_iff' _ (checkCircleCircle_iff_sq tA cA tB cB)

theorem checkCircleRect_iff_sq (ct : Transform) (cc : Collider)
    (rt : Transform) (rc : Collider) :
    checkCircleRectCollision ct cc rt rc ↔
      (0 < cc.radius ∧
        (let circleX := ct.x + cc.offsetX
         let circleY := ct.y + cc.offsetY
         let rectBounds := rc.getBounds rt
         let closestX := max rectBounds.x (min circleX (rectBounds.x + rectBounds.width))
         let closestY := max rectBounds.y (min circleY (rectBounds.y + rectBounds.height))
         (closestX - circleX) * (closestX - circleX) +
           (closestY - circleY) * (closestY - circleY) < cc.radius * cc.radius)) := by
  unfold checkCircleRectCollision
  exact sqrt_lt_iff_sq _ _
    (add_nonneg (mul_self_nonneg _) (mul_self_nonneg _))

instance (ct : Transform) (cc : Collider) (rt : Transform) (rc : Collider) :
    Decidable (checkCircleRectCollision ct cc rt rc) :=
  decidable_of_iff' _ (checkCircleRect_iff_sq ct cc rt rc)

/-- The view of an `Entity` used by `CollisionSystem`: its id, its active
flag, and its `Transform`/`Collider` components when present (`getComponent`
on the two type identifiers).  Entity ids are the uuid strings of
`Entity.ts`. -/
structure CEntity where
  id : String
  active : Bool
  transform : Option Transform
  collider : Option Collider
deriving DecidableEq, Repr

/-- The shape-dispatch chain of `CollisionSystem.checkCollision` (lines
217-233): circle/circle, then rectangle/rectangle, then the mixed case with
the circle argument first. -/
def checkShapes (tA : Transform) (cA : Collider) (tB : Transform)
    (cB : Collider) : Prop :=
  if cA.ctype = .circle ∧ cB.ctype = .circle then
    checkCircleCircleCollision tA cA tB cB
  else if cA.ctype = .rectangle ∧ cB.ctype = .rectangle then
    checkRectRectCollision tA cA tB cB
  else if cA.ctype = .circle then
    checkCircleRectCollision tA cA tB cB
  else
    checkCircleRectCollision tB cB tA cA

instance (tA : Transform) (cA : Collider) (tB : Transform) (cB : Collider) :
    Decidable (checkShapes tA cA tB cB) :=
  if h1 : cA.ctype = .circle ∧ cB.ctype = .circle then
    decidable_of_iff (checkCircleCircleCollision tA cA tB cB)
      (by unfold checkShapes; rw [if_pos h1])
  else if h2 : cA.ctype = .rectangle ∧ cB.ctype = .rectangle then
    decidable_of_iff (checkRectRectCollision tA cA tB cB)
      (by unfold checkShapes; rw [if_neg h1, if_pos h2])
  else if h3 : cA.ctype = .circle then
    decidable_of_iff (checkCircleRectCollision tA cA tB cB)
      (by unfold checkShapes; rw [if_neg h1, if_neg h2, if_pos h3])
  else
    decidable_of_iff (checkCircleRectCollision tB cB tA cA)
      (by unfold checkShapes; rw [if_neg h1, if_neg h2, if_neg h3])

/-- Models `CollisionSystem.checkCollision`: fetch both transforms and colliders,
return `false` when any is missing (line 213), otherwise dispatch on the
collider shapes. -/
def checkCollision (eA eB : CEntity) : Prop :=
  match eA.transform, eA.collider, eB.transform, eB.collider with
  | some tA, some cA, some tB, some cB => checkShapes tA cA tB cB
  | _, _, _, _ => False

instance (eA eB : CEntity) : Decidable (checkCollision eA eB) :=
  match hA : eA.transform, hB : eA.collider, hC : eB.transform,
      hD : eB.collider with
  | some tA, some cA, some tB, some cB =>
      decidable_of_iff (checkShapes tA cA tB cB)
        (by unfold checkCollision; rw [hA, hB, hC, hD])
  | none, _, _, _ =>
      isFalse (by unfold checkCollision; rw [hA]; exact fun h => h)
  | some _, none, _, _ =>
      isFalse (by unfold checkCollision; rw [hA, hB]; exact fun h => h)
  | some _, some _, none, _ =>
      isFalse (by unfold checkCollision; rw [hA, hB, hC]; exact fun h => h)
  | some _, some _, some _, none =>
      isFalse (by unfold checkCollision; rw [hA, hB, hC, hD]; exact fun h => h)

/-- JS string `<`: lexicographic comparison of the character sequences. -/
def jsStrLtChars : List Char → List Char → Bool
  | [], [] => false
  | [], _ :: _ => true
  | _ :: _, [] => false
  | a :: as, b :: bs =>
      if a < b then true else if b < a then false else jsStrLtChars as bs

/-- JS string `<` on `String`. -/
def jsStrLt (a b : String) : Bool :=
  jsStrLtChars a.data b.data

/-- Models `CollisionSystem.getCollisionPairId`: canonical pair id, smaller entity id
first, joined with `":"`. -/
def getCollisionPairId (eA eB : CEntity) : String :=
  let idA := eA.id
  let idB := eB.id
  if jsStrLt idA idB then idA ++ ":" ++ idB else idB ++ ":" ++ idA

/-- Models `pairId.split(':')`, on the underlying character list. -/
def splitColonAux (cur : List Char) : List Char → List (List Char)
  | [] => [cur.reverse]
  | c :: cs =>
      if c = ':' then cur.reverse :: splitColonAux [] cs
      else splitColonAux (c :: cur) cs

/-- Models `pairId.split(':')`. -/
def splitColon (s : String) : List String :=
  (splitColonAux [] s.data).map String.mk

/-- Models `World.getEntity(id)` as seen through the registry invariant that every
registry entry is keyed by its entity's own id. -/
def getEntityIn (world : List CEntity) (id : String) : Option CEntity :=
  world.find? (fun e => e.id == id)

/-- Models `CollisionSystem.getEntitiesFromPairId` followed by the caller's
`entityA && entityB` check: split the pair id on `":"`, look both ids up in
the world, and succeed only when both resolve. -/
def getEntitiesFromPairId (world : List CEntity) (pairId : String) :
    Option (CEntity × CEntity) :=
  match splitColon pairId with
  | idA :: idB :: _ =>
      match getEntityIn world idA, getEntityIn world idB with
      | some a, some b => some (a, b)
      | _, _ => none
  | _ => none

/-- Models `CollisionEventType` enum. -/
inductive CEventType where
  | enter
  | stay
  | exit
deriving DecidableEq, Repr

/-- A dispatched `CollisionEvent`; the source carries the two `Entity`
objects, observably identified here by their ids. -/
structure CollisionEvent where
  etype : CEventType
  entityA : String
  entityB : String
deriving DecidableEq, Repr

/-- Models `CollisionSystem.processCollisionEvents`: one pass over the current pair
ids emitting ENTER (id not previously colliding) or STAY (id previously
colliding) when both entities resolve, then one pass over the previous pair
ids emitting EXIT for ids no longer colliding whose entities both resolve.
Every event is dispatched to every registered listener; the dispatched event
stream is modelled. -/
def processCollisionEvents (prevPairs currentPairs : List String)
    (world : List CEntity) : List CollisionEvent :=
  let enterStay := currentPairs.filterMap fun pid =>
    (getEntitiesFromPairId world pid).map fun p =>
      if pid ∈ prevPairs then ⟨.stay, p.1.id, p.2.id⟩
      else ⟨.enter, p.1.id, p.2.id⟩
  let exits := prevPairs.filterMap fun pid =>
    if pid ∈ currentPairs then none
    else (getEntitiesFromPairId world pid).map fun p =>
      (⟨.exit, p.1.id, p.2.id⟩ : CollisionEvent)
  enterStay ++ exits

/-- Inner `j`-loop of `CollisionSystem.bruteForceCollisionDetection` for a
fixed `entityA`: skip the pair unless the layer/mask test passes in both
directions, then record the canonical pair id when the shapes collide.
(`Map.set` with value `true`; the collider fetch is total here because the
caller only passes filtered collidable entities.) -/
def bruteForceInner (eA : CEntity) : List String → List CEntity → List String
  | m, [] => m
  | m, eB :: rest =>
      let m' :=
        match eA.collider, eB.collider with
        | some cA, some cB =>
            if cA.canCollideWith cB.collisionLayer ∧
                cB.canCollideWith cA.collisionLayer then
              if checkCollision eA eB then setAdd m (getCollisionPairId eA eB)
              else m
            else m
        | _, _ => m
      bruteForceInner eA m' rest

/-- Outer `i`-loop of `bruteForceCollisionDetection`: every unordered pair
`(i, j)` with `i < j` is visited exactly once. -/
def bruteForceAux (acc : List String) : List CEntity → List String
  | [] => acc
  | eA :: rest => bruteForceAux (bruteForceInner eA acc rest) rest

/-- Models `CollisionSystem.bruteForceCollisionDetection` applied to an (initially
empty) current-pairs map. -/
def bruteForceCollisionDetection (entities : List CEntity) : List String :=
  bruteForceAux [] entities

/-- Models `CollisionSystem.filter(entity) && entity.isActive()`: both components
present and the entity active. -/
def collidableFilter (e : CEntity) : Bool :=
  (e.transform.isSome && e.collider.isSome) && e.active

/-- One `CollisionSystem.update` tick, as a function of the world's entity
listing and the system's `collisionPairs` state: filter collidable entities,
detect pairs (both arms of the quad-tree conditional call the same
brute-force detection), emit events against the previous pairs, and return
the new `collisionPairs` state together with the dispatched events. -/
def colUpdate (useQuadTree : Bool) (maxObjectsPerNode : ℕ) (_maxLevels : ℕ)
    (worldEntities : List CEntity) (collisionPairs : List String) :
    List String × List CollisionEvent :=
  let collidableEntities := worldEntities.filter collidableFilter
  let currentCollisionPairs :=
    if useQuadTree ∧ collidableEntities.length > maxObjectsPerNode then
      bruteForceCollisionDetection collidableEntities
    else
      bruteForceCollisionDetection collidableEntities
  let events :=
    processCollisionEvents collisionPairs currentCollisionPairs worldEntities
  (currentCollisionPairs, events)

/-- Option-level relation: two optional transforms agree on the fields the
collision path reads (`x` and `y`), leaving rotation and scale free. -/
def sameXY : Option Transform → Option Transform → Prop
  | none, none => True
  | some t, some t' => t.x = t'.x ∧ t.y = t'.y
  | _, _ => False

/-- Two collision-entity views that may differ only in the rotation,
`scaleX` and `scaleY` fields of their transform components. -/
def rotScaleEquiv (e e' : CEntity) : Prop :=
  e.id = e'.id ∧ e.active = e'.active ∧ e.collider = e'.collider ∧
    sameXY e.transform e'.transform

end AircraftWeb.Col

namespace AircraftWeb.W

/-! ## World, systems, and the tick pipeline

Embedded from the `World` and `System` classes of `src/core/ecs/System.ts`.
For the entity-population claims an entity is observed through its id; a
system's behavior is observed through the `World` mutations it requests
during its `update` (the only population-affecting operations the `World`
API offers are `addEntity` and `removeEntity`, both buffering). -/

/-- An entity as the `World` registry sees it: its id. -/
structure WEntity where
  id : String
deriving DecidableEq, Repr

/-- A population mutation requested through the `World` API during a tick. -/
inductive Request where
  | add (e : WEntity)
  | remove (id : String)

/-- A `System`: identity (`sid`, for observing execution order), the
constructor-fixed priority, the active flag, and its `update` behavior
projected onto the entity-population requests it issues after observing the
registry (`world.getEntities()`) and the elapsed time. -/
structure SystemW where
  sid : ℕ
  priority : Int
  active : Bool
  run : List (String × WEntity) → ℚ → List Request

/-- The `World` state: id-keyed registry (a JS `Map`, insertion-ordered),
priority-sorted system list, pending-addition buffer (call order), pending
removal `Set`, and the lifecycle-listener list (listeners observed by
identity). -/
structure WorldW where
  entities : List (String × WEntity)
  systems : List SystemW
  entitiesToAdd : List WEntity
  entitiesToRemove : List String
  entityListeners : List ℕ

/-- Models `World.addEntity`: buffer the entity for the next flush and return it. -/
def addEntity (w : WorldW) (e : WEntity) : WorldW :=
  { w with entitiesToAdd := w.entitiesToAdd ++ [e] }

/-- Models `World.removeEntity`: buffer the id in the pending-removal `Set`. -/
def removeEntity (w : WorldW) (entityId : String) : WorldW :=
  { w with entitiesToRemove := setAdd w.entitiesToRemove entityId }

/-- Models `World.getEntity`. -/
def getEntity (w : WorldW) (entityId : String) : Option WEntity :=
  mapGet w.entities entityId

/-- A lifecycle notification: `listener(entity, added)`; one notification per
entity/listener pair, carrying the entity's id. -/
structure Notification where
  listener : ℕ
  entityId : String
  added : Bool
deriving DecidableEq, Repr

/-- Addition flush of `World.update` (lines 197-208): insert each buffered
entity into the registry under its own id, in call order, notifying every
listener after each insertion. -/
def flushAdds : List (String × WEntity) → List WEntity → List ℕ →
    List (String × WEntity) × List Notification
  | reg, [], _ => (reg, [])
  | reg, e :: rest, listeners =>
      let reg' := mapSet reg e.id e
      let (regF, ns) := flushAdds reg' rest listeners
      (regF, listeners.map (fun l => ⟨l, e.id, true⟩) ++ ns)

/-- Removal flush of `World.update` (lines 211-224): for each buffered id,
delete it from the registry and notify every listener — but only when the id
is present; absent ids are skipped silently. -/
def flushRemoves : List (String × WEntity) → List String → List ℕ →
    List (String × WEntity) × List Notification
  | reg, [], _ => (reg, [])
  | reg, entityId :: rest, listeners =>
      match mapGet reg entityId with
      | some e =>
          let reg' := mapDelete reg entityId
          let (regF, ns) := flushRemoves reg' rest listeners
          (regF, listeners.map (fun l => ⟨l, e.id, false⟩) ++ ns)
      | none => flushRemoves reg rest listeners

/-- Apply one requested mutation through the `World` API. -/
def applyRequest (w : WorldW) : Request → WorldW
  | .add e => addEntity w e
  | .remove entityId => removeEntity w entityId

/-- System loop of `World.update` (lines 226-231): run each active system in
list order; the system observes the current registry and its requested
mutations are applied through the buffering API.  Returns the final world and,
for each executed system, its `sid` paired with the registry it observed. -/
def runSystems (dt : ℚ) : WorldW → List SystemW →
    WorldW × List (ℕ × List (String × WEntity))
  | w, [] => (w, [])
  | w, s :: rest =>
      if s.active then
        let observed := w.entities
        let w' := (s.run observed dt).foldl applyRequest w
        let (wF, obs) := runSystems dt w' rest
        (wF, (s.sid, observed) :: obs)
      else runSystems dt w rest

/-- Models `World.update`: flush buffered additions, then buffered removals, then
run every active system in order.  Returns the final world, the lifecycle
notification stream, and the per-system observations. -/
def update (w : WorldW) (dt : ℚ) :
    WorldW × List Notification × List (ℕ × List (String × WEntity)) :=
  let (reg1, n1) := flushAdds w.entities w.entitiesToAdd w.entityListeners
  let w1 := { w with entities := reg1, entitiesToAdd := [] }
  let (reg2, n2) := flushRemoves w1.entities w.entitiesToRemove w.entityListeners
  let w2 := { w1 with entities := reg2, entitiesToRemove := [] }
  let (w3, obs) := runSystems dt w2 w2.systems
  (w3, n1 ++ n2, obs)

/-- Models `World.addSystem`, restricted to the system list it rearranges (the world
back-reference and `init()` hook are not involved in the ordering claims):
insert at the first index whose existing priority is strictly greater than
the newcomer's; when there is none, `findIndex` yields `-1` and the source
falls back to the end of the list, which is exactly `List.findIdx`'s
behavior. -/
def addSystem (systems : List SystemW) (s : SystemW) : List SystemW :=
  let index := systems.findIdx (fun t => s.priority < t.priority)
  insertAt systems index s

end AircraftWeb.W

namespace AircraftWeb.ECS

/-! ## Entity and Component

Embedded from `src/core/ecs/Entity.ts` and the `Component` base class.
`initCalls`/`destroyCalls` count the invocations of the `init()`/`destroy()`
lifecycle hooks on a component (the base-class defaults are no-ops, but
subclasses override them, so an invocation is observable); `payload` stands
for the component's own data and distinguishes instances of the same type
identifier. -/

/-- A component: stable type identifier, owner back-reference, hook
invocation counters, and opaque instance data. -/
structure Comp where
  ctype : String
  owner : Option String
  initCalls : ℕ
  destroyCalls : ℕ
  payload : ℕ
deriving DecidableEq, Repr

/-- An entity: process-unique id, type-identifier-keyed component map, tag
set, and active flag. -/
structure EntityE where
  id : String
  components : List (String × Comp)
  tags : List String
  active : Bool
deriving DecidableEq, Repr

/-- Models `Entity.addComponent` (lines 32-36):
`this.components.set(component.getType(), component)` then
`component.setOwner(this)`.  The stored component's owner becomes this
entity; nothing else is touched — in particular no lifecycle hook runs and
the displaced component is not written to. -/
def EntityE.addComponent (e : EntityE) (c : Comp) : EntityE :=
  { e with components := mapSet e.components c.ctype { c with owner := some e.id } }

/-- The component displaced by `Entity.addComponent c` (the previous entry
under `c`'s type identifier), exactly as the source leaves that object:
unchanged, since `addComponent` never writes to it. -/
def EntityE.addComponentReplaced (e : EntityE) (c : Comp) : Option Comp :=
  mapGet e.components c.ctype

/-- Models `Entity.removeComponent` (lines 42-51): when present, clear the
component's owner back-reference and delete the map entry; otherwise a
no-op.  No lifecycle hook runs. -/
def EntityE.removeComponent (e : EntityE) (componentType : String) : EntityE :=
  { e with components := mapDelete e.components componentType }

/-- The component object detached by `Entity.removeComponent`, as the source
leaves it: owner cleared by `setOwner(null)`, hook counters untouched. -/
def EntityE.removedComponent (e : EntityE) (componentType : String) : Option Comp :=
  (mapGet e.components componentType).map fun c => { c with owner := none }

/-- Models `Entity.getComponent`. -/
def EntityE.getComponent (e : EntityE) (componentType : String) : Option Comp :=
  mapGet e.components componentType

/-- Models `Entity.hasComponent`. -/
def EntityE.hasComponent (e : EntityE) (componentType : String) : Bool :=
  (mapGet e.components componentType).isSome

/-- Modelled from the spec: `Entity.addComponent` as §4.1/§4.2 describe it —
on top of what the source does, the spec asserts the `init()` hook of the
attached component is invoked and the replaced component's owner
back-reference is cleared. -/
def EntityE.addComponentSpec (e : EntityE) (c : Comp) : EntityE × Option Comp :=
  let stored : Comp := { c with owner := some e.id, initCalls := c.initCalls + 1 }
  ({ e with components := mapSet e.components c.ctype stored },
    (mapGet e.components c.ctype).map fun old => { old with owner := none })

end AircraftWeb.ECS

namespace AircraftWeb

/-! ## Concrete instances used by the example scenarios -/

namespace Col

/-- Rectangle collider of the test scenarios: `new
ColliderComponent(ColliderType.RECTANGLE, 50, 50)`. -/
def rect50 : Collider := Collider.mk' .rectangle 50 50

/-- Transform at a position, default rotation and scale. -/
def transformAt (x y : ℚ) : Transform := ⟨x, y, 0, 1, 1⟩

/-- Entity `"a"` with a 50×50 rectangle collider at a position. -/
def entRectA (x y : ℚ) : CEntity :=
  ⟨"a", true, some (transformAt x y), some rect50⟩

/-- Entity `"b"` with a 50×50 rectangle collider at a position. -/
def entRectB (x y : ℚ) : CEntity :=
  ⟨"b", true, some (transformAt x y), some rect50⟩

/-- Tick population with the two rectangles apart. -/
def scenarioApart : List CEntity := [entRectA 100 100, entRectB 200 200]

/-- Tick population with the two rectangles overlapping. -/
def scenarioOverlap : List CEntity := [entRectA 100 100, entRectB 120 120]

/-- Circle collider with the source's default radius 16. -/
def circ16 : Collider := Collider.mk' .circle

/-- Variant of `entRectA 100 100` with rotated and scaled transform. -/
def entRectARot : CEntity := ⟨"a", true, some ⟨100, 100, 3, 2, 5⟩, some rect50⟩

/-- Variant of `entRectB 120 120` with rotated and scaled transform. -/
def entRectBRot : CEntity := ⟨"b", true, some ⟨120, 120, 1, 7, 9⟩, some rect50⟩

/-- Layer-filter scenario collider: `new ColliderComponent(RECTANGLE, 50, 50,
0, 0, 0, false, layer, mask)`. -/
def rectLayered (layer mask : ℕ) : Collider :=
  Collider.mk' .rectangle 50 50 0 0 0 false layer mask

/-- Overlapping rectangles with bidirectionally mismatched layer/mask. -/
def scenarioLayered : List CEntity :=
  [⟨"a", true, some (transformAt 100 100), some (rectLayered 1 2)⟩,
   ⟨"b", true, some (transformAt 120 120), some (rectLayered 4 8)⟩]

end Col

namespace W

/-- A system with a given identity and priority that issues no requests. -/
def sysOfPriority (sid : ℕ) (p : Int) : SystemW :=
  ⟨sid, p, true, fun _ _ => []⟩

/-- Priority-sort example: systems of priorities 50, 5, 20 added in that
order. -/
def demoSystems : List SystemW :=
  addSystem (addSystem (addSystem [] (sysOfPriority 0 50)) (sysOfPriority 1 5))
    (sysOfPriority 2 20)

/-- A small world used to witness the update/flush theorems: one registered
entity `"x"`, one buffered addition `"y"`, buffered removals `"x"` (present)
and `"zz"` (unknown), two listeners, no systems. -/
def demoWorld : WorldW :=
  ⟨[("x", ⟨"x"⟩)], [], [⟨"y"⟩], ["x", "zz"], [0, 1]⟩

end W

namespace ECS

/-- A component instance of type identifier `"T"`, detached, hooks never
invoked, payload 1. -/
def compT1 : Comp := ⟨"T", none, 0, 0, 1⟩

/-- A second component instance of the same type identifier, payload 2. -/
def compT2 : Comp := ⟨"T", none, 0, 0, 2⟩

/-- A freshly constructed entity of id `"e1"`. -/
def entE0 : EntityE := ⟨"e1", [], [], true⟩

end ECS

/-! ## Helper lemmas -/

theorem mapGet_mapSet_self {α : Type} (m : List (String × α)) (k : String)
    (v : α) : mapGet (mapSet m k v) k = some v := by
  induction m with
  | nil => simp [mapSet, mapGet]
  | cons p rest ih =>
      obtain ⟨a, b⟩ := p
      by_cases ha : a = k
      · simp [mapSet, mapGet, ha]
      · simp [mapSet, mapGet, ha, ih]

theorem mapGet_mapDelete_ne {α : Type} (m : List (String × α)) (k k' : String)
    (h : k' ≠ k) : mapGet (mapDelete m k') k = mapGet m k := by
  induction m with
  | nil => rfl
  | cons p rest ih =>
      obtain ⟨a, b⟩ := p
      by_cases ha : a = k'
      · subst ha
        simp [mapDelete, mapGet, h]
      · simp only [mapDelete, if_neg ha]
        by_cases hk : a = k
        · simp [mapGet, hk]
        · simp [mapGet, hk, ih]

theorem mapDelete_eq_of_mapGet_none {α : Type} (m : List (String × α))
    (k : String) (h : mapGet m k = none) : mapDelete m k = m := by
  induction m with
  | nil => rfl
  | cons p rest ih =>
      obtain ⟨a, b⟩ := p
      by_cases ha : a = k
      · simp [mapGet, ha] at h
      · simp only [mapGet, if_neg ha] at h
        simp [mapDelete, ha, ih h]

theorem mem_setAdd (l : List String) (x y : String) :
    y ∈ setAdd l x ↔ y ∈ l ∨ y = x := by
  by_cases h : x ∈ l
  · simp only [setAdd, if_pos h]
    constructor
    · exact Or.inl
    · rintro (hy | rfl) <;> [exact hy; exact h]
  · simp [setAdd, if_neg h]

theorem setAdd_idem (l : List String) (x : String) :
    setAdd (setAdd l x) x = setAdd l x := by
  have hx : x ∈ setAdd l x := (mem_setAdd l x x).2 (Or.inr rfl)
  show (if x ∈ setAdd l x then setAdd l x else setAdd l x ++ [x]) = setAdd l x
  rw [if_pos hx]

namespace Col

theorem pair_sublist_cons {α : Type} (a b x : α) (l : List α) :
    List.Sublist [a, b] (x :: l) ↔ (a = x ∧ b ∈ l) ∨ List.Sublist [a, b] l := by
  constructor
  · intro h
    cases h with
    | cons _ h' => exact Or.inr h'
    | cons₂ _ h' => exact Or.inl ⟨rfl, List.singleton_sublist.1 h'⟩
  · rintro (⟨rfl, hb⟩ | h)
    · exact (List.singleton_sublist.2 hb).cons₂ _
    · exact h.cons _

theorem mem_bruteForceInner (eA : CEntity) (acc : List String)
    (rest : List CEntity) (pid : String) :
    pid ∈ bruteForceInner eA acc rest ↔
      pid ∈ acc ∨ ∃ eB ∈ rest, ∃ cA cB,
        eA.collider = some cA ∧ eB.collider = some cB ∧
        cA.canCollideWith cB.collisionLayer ∧
        cB.canCollideWith cA.collisionLayer ∧
        checkCollision eA eB ∧ pid = getCollisionPairId eA eB := by
  induction rest generalizing acc with
  | nil => simp [bruteForceInner]
  | cons b bs ih =>
      simp only [bruteForceInner]
      cases hA : eA.collider with
      | none =>
          simp only [hA]
          rw [ih]
          simp [hA, List.exists_mem_cons_iff]
      | some cA =>
          cases hB : b.collider with
          | none =>
              simp only [hA, hB]
              rw [ih]
              simp [hA, hB, List.exists_mem_cons_iff]
          | some cB =>
              simp only [hA, hB]
              by_cases hg : cA.canCollideWith cB.collisionLayer ∧
                  cB.canCollideWith cA.collisionLayer
              · by_cases hc : checkCollision eA b
                · rw [if_pos hg, if_pos hc, ih, mem_setAdd]
                  simp only [hA, hB, List.exists_mem_cons_iff,
                    Option.some.injEq]
                  constructor
                  · rintro ((hm | rfl) | hrest)
                    · exact Or.inl hm
                    · exact Or.inr (Or.inl
                        ⟨cA, cB, rfl, rfl, hg.1, hg.2, hc, rfl⟩)
                    · exact Or.inr (Or.inr hrest)
                  · rintro (hm | (⟨cA', cB', hA', hB', h1, h2, h3, h4⟩ | hrest))
                    · exact Or.inl (Or.inl hm)
                    · subst hA'
                      subst hB'
                      exact Or.inl (Or.inr h4)
                    · exact Or.inr hrest
                · rw [if_pos hg, if_neg hc, ih]
                  simp only [hA, hB, List.exists_mem_cons_iff,
                    Option.some.injEq]
                  constructor
                  · rintro (hm | hrest)
                    · exact Or.inl hm
                    · exact Or.inr (Or.inr hrest)
                  · rintro (hm | (⟨cA', cB', hA', hB', h1, h2, h3, h4⟩ | hrest))
                    · exact Or.inl hm
                    · subst hA'
                      subst hB'
                      exact absurd h3 hc
                    · exact Or.inr hrest
              · rw [if_neg hg, ih]
                simp only [hA, hB, List.exists_mem_cons_iff,
                  Option.some.injEq]
                constructor
                · rintro (hm | hrest)
                  · exact Or.inl hm
                  · exact Or.inr (Or.inr hrest)
                · rintro (hm | (⟨cA', cB', hA', hB', h1, h2, h3, h4⟩ | hrest))
                  · exact Or.inl hm
                  · subst hA'
                    subst hB'
                    exact absurd ⟨h1, h2⟩ hg
                  · exact Or.inr hrest

theorem mem_bruteForceAux (acc : List String) (es : List CEntity)
    (pid : String) :
    pid ∈ bruteForceAux acc es ↔
      pid ∈ acc ∨ ∃ a b, List.Sublist [a, b] es ∧ ∃ cA cB,
        a.collider = some cA ∧ b.collider = some cB ∧
        cA.canCollideWith cB.collisionLayer ∧
        cB.canCollideWith cA.collisionLayer ∧
        checkCollision a b ∧ pid = getCollisionPairId a b := by
  induction es generalizing acc with
  | nil => simp [bruteForceAux]
  | cons x rest ih =>
      simp only [bruteForceAux]
      rw [ih, mem_bruteForceInner]
      simp only [pair_sublist_cons]
      constructor
      · rintro ((hm | ⟨b, hb, hP⟩) | ⟨a, b, hs, hP⟩)
        · exact Or.inl hm
        · exact Or.inr ⟨x, b, Or.inl ⟨rfl, hb⟩, hP⟩
        · exact Or.inr ⟨a, b, Or.inr hs, hP⟩
      · rintro (hm | ⟨a, b, (⟨rfl, hb⟩ | hs), hP⟩)
        · exact Or.inl (Or.inl hm)
        · exact Or.inl (Or.inr ⟨b, hb, hP⟩)
        · exact Or.inr ⟨a, b, hs, hP⟩

theorem getEntityIn_some_id (world : List CEntity) (i : String) (e : CEntity)
    (h : getEntityIn world i = some e) : e.id = i := by
  have hp := List.find?_some h
  simpa using hp

theorem resolve_ids (world : List CEntity) (pid : String) (a b : CEntity)
    (h : getEntitiesFromPairId world pid = some (a, b)) :
    ∃ idA idB t, splitColon pid = idA :: idB :: t ∧
      getEntityIn world idA = some a ∧ getEntityIn world idB = some b ∧
      a.id = idA ∧ b.id = idB := by
  unfold getEntitiesFromPairId at h
  cases hs : splitColon pid with
  | nil =>
      rw [hs] at h
      exact absurd h (by simp)
  | cons idA t1 =>
      cases t1 with
      | nil =>
          rw [hs] at h
          exact absurd h (by simp)
      | cons idB t2 =>
          rw [hs] at h
          dsimp only at h
          cases hx : getEntityIn world idA with
          | none =>
              rw [hx] at h
              exact absurd h (by simp)
          | some ea =>
              cases hy : getEntityIn world idB with
              | none =>
                  rw [hx, hy] at h
                  exact absurd h (by simp)
              | some eb =>
                  rw [hx, hy] at h
                  simp only [Option.some.injEq, Prod.mk.injEq] at h
                  obtain ⟨h1, h2⟩ := h
                  have hx' : getEntityIn world idA = some a := by rw [hx, h1]
                  have hy' : getEntityIn world idB = some b := by rw [hy, h2]
                  exact ⟨idA, idB, t2, rfl, hx', hy',
                    getEntityIn_some_id world idA a hx',
                    getEntityIn_some_id world idB b hy'⟩

theorem resolve_eq_of_ids (world : List CEntity) (pid pid' : String)
    (p1 p2 a b : CEntity)
    (h' : getEntitiesFromPairId world pid' = some (p1, p2))
    (h : getEntitiesFromPairId world pid = some (a, b))
    (h1 : p1.id = a.id) (h2 : p2.id = b.id) :
    getEntitiesFromPairId world pid' = some (a, b) := by
  obtain ⟨iA, iB, t, hs, hx, hy, hida, hidb⟩ := resolve_ids world pid' p1 p2 h'
  obtain ⟨jA, jB, u, hs', hx', hy', hida', hidb'⟩ := resolve_ids world pid a b h
  have hiA : iA = jA := by rw [← hida, ← hida', h1]
  have hiB : iB = jB := by rw [← hidb, ← hidb', h2]
  have hpa : p1 = a := by
    rw [hiA] at hx
    rw [hx] at hx'
    exact Option.some.inj hx'
  have hpb : p2 = b := by
    rw [hiB] at hy
    rw [hy] at hy'
    exact Option.some.inj hy'
  rw [h', hpa, hpb]

theorem enterStay_event_eq_iff (world : List CEntity) (prev : List String)
    (a b : CEntity) (pid pid' : String) (ty : CEventType)
    (hty : ty ≠ CEventType.exit)
    (hres : getEntitiesFromPairId world pid = some (a, b)) :
    ((getEntitiesFromPairId world pid').map
        (fun p => if pid' ∈ prev then (⟨.stay, p.1.id, p.2.id⟩ : CollisionEvent)
          else ⟨.enter, p.1.id, p.2.id⟩) = some ⟨ty, a.id, b.id⟩) ↔
      (getEntitiesFromPairId world pid' = some (a, b) ∧
        ((pid' ∈ prev ∧ ty = .stay) ∨ (pid' ∉ prev ∧ ty = .enter))) := by
  cases hr : getEntitiesFromPairId world pid' with
  | none => simp
  | some p =>
      obtain ⟨p1, p2⟩ := p
      by_cases hp : pid' ∈ prev
      · simp only [Option.map_some', if_pos hp]
        constructor
        · intro h
          simp only [Option.some.injEq, CollisionEvent.mk.injEq] at h
          obtain ⟨hty', h1, h2⟩ := h
          exact ⟨hr.symm.trans
              (resolve_eq_of_ids world pid pid' p1 p2 a b hr hres h1 h2),
            Or.inl ⟨hp, hty'.symm⟩⟩
        · rintro ⟨hpp, (⟨-, rfl⟩ | ⟨hnp, -⟩)⟩
          · simp only [Option.some.injEq, Prod.mk.injEq] at hpp
            rw [hpp.1, hpp.2]
          · exact absurd hp hnp
      · simp only [Option.map_some', if_neg hp]
        constructor
        · intro h
          simp only [Option.some.injEq, CollisionEvent.mk.injEq] at h
          obtain ⟨hty', h1, h2⟩ := h
          exact ⟨hr.symm.trans
              (resolve_eq_of_ids world pid pid' p1 p2 a b hr hres h1 h2),
            Or.inr ⟨hp, hty'.symm⟩⟩
        · rintro ⟨hpp, (⟨hpp', -⟩ | ⟨-, rfl⟩)⟩
          · exact absurd hpp' hp
          · simp only [Option.some.injEq, Prod.mk.injEq] at hpp
            rw [hpp.1, hpp.2]

theorem exit_event_eq_iff (world : List CEntity) (current : List String)
    (a b : CEntity) (pid pid' : String)
    (hres : getEntitiesFromPairId world pid = some (a, b)) :
    ((if pid' ∈ current then none
      else (getEntitiesFromPairId world pid').map
        (fun p => (⟨.exit, p.1.id, p.2.id⟩ : CollisionEvent))) =
        some ⟨.exit, a.id, b.id⟩) ↔
      (getEntitiesFromPairId world pid' = some (a, b) ∧ pid' ∉ current) := by
  by_cases hc : pid' ∈ current
  · simp [hc]
  · rw [if_neg hc]
    cases hr : getEntitiesFromPairId world pid' with
    | none => simp
    | some p =>
        obtain ⟨p1, p2⟩ := p
        simp only [Option.map_some']
        constructor
        · intro h
          simp only [Option.some.injEq, CollisionEvent.mk.injEq] at h
          obtain ⟨-, h1, h2⟩ := h
          exact ⟨hr.symm.trans
              (resolve_eq_of_ids world pid pid' p1 p2 a b hr hres h1 h2), hc⟩
        · rintro ⟨hpp, -⟩
          simp only [Option.some.injEq, Prod.mk.injEq] at hpp
          rw [hpp.1, hpp.2]

theorem count_filterMap {α β : Type} [DecidableEq β] (f : α → Option β)
    (l : List α) (b : β) :
    (l.filterMap f).count b = l.countP (fun a => f a == some b) := by
  induction l with
  | nil => rfl
  | cons x xs ih =>
      cases hfx : f x with
      | none => simp [List.filterMap_cons, hfx, List.countP_cons, ih]
      | some y =>
          by_cases hyb : y = b
          · subst hyb
            simp [List.filterMap_cons, hfx, List.count_cons,
              List.countP_cons, ih]
          · simp [List.filterMap_cons, hfx, List.count_cons,
              List.countP_cons, ih, hyb]

theorem countP_eq_ite_of_iff {l : List String} {p : String → Bool}
    {x : String} (h : ∀ y ∈ l, p y = true ↔ y = x) (hn : l.Nodup) :
    l.countP p = if x ∈ l then 1 else 0 := by
  induction l with
  | nil => simp
  | cons z zs ih =>
      rcases List.nodup_cons.1 hn with ⟨hz, hzs⟩
      rw [List.countP_cons]
      have hhead := h z (List.mem_cons_self _ _)
      by_cases hzx : z = x
      · subst hzx
        rw [hhead.2 rfl]
        have hz0 : zs.countP p = 0 := by
          rw [List.countP_eq_zero]
          intro y hy hp
          exact hz (((h y (List.mem_cons_of_mem _ hy)).1 hp) ▸ hy)
        simp [hz0]
      · have hpz : p z = false := by
          cases hpq : p z
          · rfl
          · exact absurd (hhead.1 hpq) hzx
        have hmem : (x ∈ z :: zs) ↔ x ∈ zs := by
          constructor
          · intro hx
            rcases List.mem_cons.1 hx with rfl | hx
            · exact absurd rfl hzx
            · exact hx
          · exact List.mem_cons_of_mem _
        rw [ih (fun y hy => h y (List.mem_cons_of_mem _ hy)) hzs]
        simp [hpz, hmem]

theorem countP_eq_zero_of_none {α : Type} {l : List α} {p : α → Bool}
    (h : ∀ y ∈ l, p y ≠ true) : l.countP p = 0 :=
  List.countP_eq_zero.2 fun y hy hp => h y hy hp

theorem processCollisionEvents_counts (world : List CEntity)
    (prev current : List String) (hnp : prev.Nodup) (hnc : current.Nodup)
    (a b : CEntity) (pid : String)
    (hres : getEntitiesFromPairId world pid = some (a, b))
    (huniq : ∀ pid' ∈ current ++ prev,
        getEntitiesFromPairId world pid' = some (a, b) → pid' = pid) :
    ((processCollisionEvents prev current world).count
        ⟨.enter, a.id, b.id⟩ = if pid ∈ current ∧ pid ∉ prev then 1 else 0) ∧
      ((processCollisionEvents prev current world).count
        ⟨.stay, a.id, b.id⟩ = if pid ∈ current ∧ pid ∈ prev then 1 else 0) ∧
      ((processCollisionEvents prev current world).count
        ⟨.exit, a.id, b.id⟩ = if pid ∈ prev ∧ pid ∉ current then 1 else 0) := by
  have hmemCP : ∀ pid' ∈ current, pid' ∈ current ++ prev :=
    fun pid' h => List.mem_append.2 (Or.inl h)
  have hmemPP : ∀ pid' ∈ prev, pid' ∈ current ++ prev :=
    fun pid' h => List.mem_append.2 (Or.inr h)
  have hPE : processCollisionEvents prev current world =
      (current.filterMap fun pid' =>
        (getEntitiesFromPairId world pid').map fun p =>
          if pid' ∈ prev then (⟨.stay, p.1.id, p.2.id⟩ : CollisionEvent)
          else ⟨.enter, p.1.id, p.2.id⟩) ++
      (prev.filterMap fun pid' =>
        if pid' ∈ current then none
        else (getEntitiesFromPairId world pid').map fun p =>
          (⟨.exit, p.1.id, p.2.id⟩ : CollisionEvent)) := rfl
  refine ⟨?_, ?_, ?_⟩
  · rw [hPE, List.count_append, count_filterMap, count_filterMap]
    have hzero : prev.countP (fun pid' =>
        (if pid' ∈ current then none
          else (getEntitiesFromPairId world pid').map fun p =>
            (⟨.exit, p.1.id, p.2.id⟩ : CollisionEvent)) ==
          some ⟨.enter, a.id, b.id⟩) = 0 := by
      refine countP_eq_zero_of_none ?_
      intro pid' hmem hbeq
      rw [beq_iff_eq] at hbeq
      by_cases hc : pid' ∈ current
      · rw [if_pos hc] at hbeq
        exact absurd hbeq (by simp)
      · rw [if_neg hc] at hbeq
        cases hr : getEntitiesFromPairId world pid' with
        | none =>
            rw [hr] at hbeq
            exact absurd hbeq (by simp)
        | some p =>
            rw [hr] at hbeq
            simp at hbeq
    rw [hzero, Nat.add_zero]
    by_cases hpnp : pid ∈ prev
    · have h0 : current.countP (fun pid' =>
          ((getEntitiesFromPairId world pid').map fun p =>
            if pid' ∈ prev then (⟨.stay, p.1.id, p.2.id⟩ : CollisionEvent)
            else ⟨.enter, p.1.id, p.2.id⟩) ==
            some ⟨.enter, a.id, b.id⟩) = 0 := by
        refine countP_eq_zero_of_none ?_
        intro pid' hmem hbeq
        rw [beq_iff_eq] at hbeq
        have h' := (enterStay_event_eq_iff world prev a b pid pid'
          .enter (by simp) hres).1 hbeq
        obtain ⟨hresolve, hcases⟩ := h'
        rcases hcases with ⟨-, hcon⟩ | ⟨hnp', -⟩
        · exact absurd hcon (by simp)
        · have heq := huniq pid' (hmemCP pid' hmem) hresolve
          rw [heq] at hnp'
          exact absurd hpnp hnp'
      rw [h0]
      simp [hpnp]
    · have h1 : ∀ y ∈ current,
          ((((getEntitiesFromPairId world y).map fun p =>
            if y ∈ prev then (⟨.stay, p.1.id, p.2.id⟩ : CollisionEvent)
            else ⟨.enter, p.1.id, p.2.id⟩) ==
            some ⟨.enter, a.id, b.id⟩) = true) ↔ y = pid := by
        intro y hy
        rw [beq_iff_eq]
        rw [enterStay_event_eq_iff world prev a b pid y .enter (by simp) hres]
        constructor
        · rintro ⟨hresolve, -⟩
          exact huniq y (hmemCP y hy) hresolve
        · rintro rfl
          exact ⟨hres, Or.inr ⟨hpnp, rfl⟩⟩
      rw [countP_eq_ite_of_iff h1 hnc]
      simp [hpnp]
  · rw [hPE, List.count_append, count_filterMap, count_filterMap]
    have hzero : prev.countP (fun pid' =>
        (if pid' ∈ current then none
          else (getEntitiesFromPairId world pid').map fun p =>
            (⟨.exit, p.1.id, p.2.id⟩ : CollisionEvent)) ==
          some ⟨.stay, a.id, b.id⟩) = 0 := by
      refine countP_eq_zero_of_none ?_
      intro pid' hmem hbeq
      rw [beq_iff_eq] at hbeq
      by_cases hc : pid' ∈ current
      · rw [if_pos hc] at hbeq
        exact absurd hbeq (by simp)
      · rw [if_neg hc] at hbeq
        cases hr : getEntitiesFromPairId world pid' with
        | none =>
            rw [hr] at hbeq
            exact absurd hbeq (by simp)
        | some p =>
            rw [hr] at hbeq
            simp at hbeq
    rw [hzero, Nat.add_zero]
    by_cases hpnp : pid ∈ prev
    · have h1 : ∀ y ∈ current,
          ((((getEntitiesFromPairId world y).map fun p =>
            if y ∈ prev then (⟨.stay, p.1.id, p.2.id⟩ : CollisionEvent)
            else ⟨.enter, p.1.id, p.2.id⟩) ==
            some ⟨.stay, a.id, b.id⟩) = true) ↔ y = pid := by
        intro y hy
        rw [beq_iff_eq]
        rw [enterStay_event_eq_iff world prev a b pid y .stay (by simp) hres]
        constructor
        · rintro ⟨hresolve, -⟩
          exact huniq y (hmemCP y hy) hresolve
        · rintro rfl
          exact ⟨hres, Or.inl ⟨hpnp, rfl⟩⟩
      rw [countP_eq_ite_of_iff h1 hnc]
      simp [hpnp]
    · have h0 : current.countP (fun pid' =>
          ((getEntitiesFromPairId world pid').map fun p =>
            if pid' ∈ prev then (⟨.stay, p.1.id, p.2.id⟩ : CollisionEvent)
            else ⟨.enter, p.1.id, p.2.id⟩) ==
            some ⟨.stay, a.id, b.id⟩) = 0 := by
        refine countP_eq_zero_of_none ?_
        intro pid' hmem hbeq
        rw [beq_iff_eq] at hbeq
        have h' := (enterStay_event_eq_iff world prev a b pid pid'
          .stay (by simp) hres).1 hbeq
        obtain ⟨hresolve, hcases⟩ := h'
        rcases hcases with ⟨hinp, -⟩ | ⟨-, hcon⟩
        · have heq := huniq pid' (hmemCP pid' hmem) hresolve
          rw [heq] at hinp
          exact absurd hinp hpnp
        · exact absurd hcon (by simp)
      rw [h0]
      simp [hpnp]
  · rw [hPE, List.count_append, count_filterMap, count_filterMap]
    have hzero : current.countP (fun pid' =>
        ((getEntitiesFromPairId world pid').map fun p =>
          if pid' ∈ prev then (⟨.stay, p.1.id, p.2.id⟩ : CollisionEvent)
          else ⟨.enter, p.1.id, p.2.id⟩) ==
          some ⟨.exit, a.id, b.id⟩) = 0 := by
      refine countP_eq_zero_of_none ?_
      intro pid' hmem hbeq
      rw [beq_iff_eq] at hbeq
      cases hr : getEntitiesFromPairId world pid' with
      | none =>
          rw [hr] at hbeq
          exact absurd hbeq (by simp)
      | some p =>
          rw [hr] at hbeq
          by_cases hp : pid' ∈ prev
          · rw [Option.map_some', if_pos hp] at hbeq
            simp at hbeq
          · rw [Option.map_some', if_neg hp] at hbeq
            simp at hbeq
    rw [hzero, Nat.zero_add]
    by_cases hpc : pid ∈ current
    · have h0 : prev.countP (fun pid' =>
          (if pid' ∈ current then none
            else (getEntitiesFromPairId world pid').map fun p =>
              (⟨.exit, p.1.id, p.2.id⟩ : CollisionEvent)) ==
            some ⟨.exit, a.id, b.id⟩) = 0 := by
        refine countP_eq_zero_of_none ?_
        intro pid' hmem hbeq
        rw [beq_iff_eq] at hbeq
        have h' := (exit_event_eq_iff world current a b pid pid' hres).1 hbeq
        obtain ⟨hresolve, hnc'⟩ := h'
        have heq := huniq pid' (hmemPP pid' hmem) hresolve
        rw [heq] at hnc'
        exact absurd hpc hnc'
      rw [h0]
      simp [hpc]
    · have h1 : ∀ y ∈ prev,
          (((if y ∈ current then none
            else (getEntitiesFromPairId world y).map fun p =>
              (⟨.exit, p.1.id, p.2.id⟩ : CollisionEvent)) ==
            some ⟨.exit, a.id, b.id⟩) = true) ↔ y = pid := by
        intro y hy
        rw [beq_iff_eq]
        rw [exit_event_eq_iff world current a b pid y hres]
        constructor
        · rintro ⟨hresolve, -⟩
          exact huniq y (hmemPP y hy) hresolve
        · rintro rfl
          exact ⟨hres, hpc⟩
      rw [countP_eq_ite_of_iff h1 hnp]
      simp [hpc]

theorem getBounds_congr (c : Collider) (t t' : Transform) (hx : t.x = t'.x)
    (hy : t.y = t'.y) : c.getBounds t = c.getBounds t' := by
  simp only [Collider.getBounds, hx, hy]

theorem checkShapes_congr (tA tA' tB tB' : Transform) (cA cB : Collider)
    (hAx : tA.x = tA'.x) (hAy : tA.y = tA'.y) (hBx : tB.x = tB'.x)
    (hBy : tB.y = tB'.y) :
    checkShapes tA cA tB cB ↔ checkShapes tA' cA tB' cB := by
  simp only [checkShapes, checkCircleCircleCollision, checkRectRectCollision,
    checkCircleRectCollision, hAx, hAy, hBx, hBy,
    getBounds_congr cA tA tA' hAx hAy, getBounds_congr cB tB tB' hBx hBy]

theorem checkCollision_congr (eA eA' eB eB' : CEntity)
    (hA : rotScaleEquiv eA eA') (hB : rotScaleEquiv eB eB') :
    checkCollision eA eB ↔ checkCollision eA' eB' := by
  obtain ⟨-, -, hAc, hAt⟩ := hA
  obtain ⟨-, -, hBc, hBt⟩ := hB
  cases hA1 : eA.transform with
  | none =>
      cases hA2 : eA'.transform with
      | none => simp [checkCollision, hA1, hA2]
      | some tA' =>
          rw [hA1, hA2] at hAt
          exact absurd hAt (by simp [sameXY])
  | some tA =>
      cases hA2 : eA'.transform with
      | none =>
          rw [hA1, hA2] at hAt
          exact absurd hAt (by simp [sameXY])
      | some tA' =>
          rw [hA1, hA2] at hAt
          obtain ⟨hAx, hAy⟩ := hAt
          cases hC : eA.collider with
          | none =>
              have hC' : eA'.collider = none := hAc.symm.trans hC
              simp [checkCollision, hA1, hA2, hC, hC']
          | some cA =>
              have hC' : eA'.collider = some cA := hAc.symm.trans hC
              cases hB1 : eB.transform with
              | none =>
                  cases hB2 : eB'.transform with
                  | none => simp [checkCollision, hA1, hA2, hC, hC', hB1, hB2]
                  | some tB' =>
                      rw [hB1, hB2] at hBt
                      exact absurd hBt (by simp [sameXY])
              | some tB =>
                  cases hB2 : eB'.transform with
                  | none =>
                      rw [hB1, hB2] at hBt
                      exact absurd hBt (by simp [sameXY])
                  | some tB' =>
                      rw [hB1, hB2] at hBt
                      obtain ⟨hBx, hBy⟩ := hBt
                      cases hD : eB.collider with
                      | none =>
                          have hD' : eB'.collider = none := hBc.symm.trans hD
                          simp [checkCollision, hA1, hA2, hC, hC', hB1, hB2,
                            hD, hD']
                      | some cB =>
                          have hD' : eB'.collider = some cB :=
                            hBc.symm.trans hD
                          simp only [checkCollision, hA1, hA2, hC, hC', hB1,
                            hB2, hD, hD']
                          exact checkShapes_congr tA tA' tB tB' cA cB hAx hAy
                            hBx hBy

theorem getCollisionPairId_congr (a a' b b' : CEntity) (hida : a.id = a'.id)
    (hidb : b.id = b'.id) :
    getCollisionPairId a b = getCollisionPairId a' b' := by
  unfold getCollisionPairId
  rw [hida, hidb]

theorem collidableFilter_congr (e e' : CEntity) (h : rotScaleEquiv e e') :
    collidableFilter e = collidableFilter e' := by
  obtain ⟨-, ha, hc, ht⟩ := h
  unfold collidableFilter
  rw [ha, hc]
  cases h1 : e.transform with
  | none =>
      cases h2 : e'.transform with
      | none => simp [h1, h2]
      | some t' =>
          rw [h1, h2] at ht
          exact absurd ht (by simp [sameXY])
  | some t =>
      cases h2 : e'.transform with
      | none =>
          rw [h1, h2] at ht
          exact absurd ht (by simp [sameXY])
      | some t' => simp [h1, h2]

theorem forall₂_filter_collidable {es es' : List CEntity}
    (h : List.Forall₂ rotScaleEquiv es es') :
    List.Forall₂ rotScaleEquiv (es.filter collidableFilter)
      (es'.filter collidableFilter) := by
  induction h with
  | nil => exact List.Forall₂.nil
  | @cons a a' l l' hrel hrest ih =>
      rw [List.filter_cons, List.filter_cons, collidableFilter_congr a a' hrel]
      cases hf : collidableFilter a' with
      | true => exact List.Forall₂.cons hrel ih
      | false => exact ih

theorem bruteForceInner_congr {eA eA' : CEntity} (hA : rotScaleEquiv eA eA') :
    ∀ {rest rest' : List CEntity}, List.Forall₂ rotScaleEquiv rest rest' →
      ∀ acc, bruteForceInner eA acc rest = bruteForceInner eA' acc rest' := by
  intro rest rest' h
  induction h with
  | nil => intro acc; rfl
  | @cons b b' l l' hrel hrest ih =>
      intro acc
      have hidA : eA.id = eA'.id := hA.1
      have hcA : eA.collider = eA'.collider := hA.2.2.1
      have hidB : b.id = b'.id := hrel.1
      have hcB : b.collider = b'.collider := hrel.2.2.1
      simp only [bruteForceInner]
      rw [hcA, hcB]
      cases hC : eA'.collider with
      | none =>
          dsimp only
          exact ih acc
      | some cA =>
          cases hD : b'.collider with
          | none =>
              dsimp only
              exact ih acc
          | some cB =>
              dsimp only
              have hiff : checkCollision eA b ↔ checkCollision eA' b' :=
                checkCollision_congr eA eA' b b' hA hrel
              simp only [hiff, getCollisionPairId_congr eA eA' b b' hidA hidB]
              exact ih _

theorem bruteForceAux_congr :
    ∀ {es es' : List CEntity}, List.Forall₂ rotScaleEquiv es es' →
      ∀ acc, bruteForceAux acc es = bruteForceAux acc es' := by
  intro es es' h
  induction h with
  | nil => intro acc; rfl
  | @cons a a' l l' hrel hrest ih =>
      intro acc
      simp only [bruteForceAux]
      rw [bruteForceInner_congr hrel hrest acc]
      exact ih _

theorem getEntityIn_id_congr {es es' : List CEntity}
    (h : List.Forall₂ rotScaleEquiv es es') (i : String) :
    (getEntityIn es i).map CEntity.id = (getEntityIn es' i).map CEntity.id := by
  induction h with
  | nil => rfl
  | @cons a a' l l' hrel hrest ih =>
      have hid : a.id = a'.id := hrel.1
      cases hcond : (a'.id == i) with
      | true => simp [getEntityIn, List.find?, hid, hcond]
      | false =>
          simp only [getEntityIn, List.find?, hid, hcond] at ih ⊢
          exact ih

theorem getEntitiesFromPairId_map_congr {es es' : List CEntity}
    (h : List.Forall₂ rotScaleEquiv es es') (pid : String)
    (g : String → String → CollisionEvent) :
    (getEntitiesFromPairId es pid).map (fun p => g p.1.id p.2.id) =
      (getEntitiesFromPairId es' pid).map (fun p => g p.1.id p.2.id) := by
  unfold getEntitiesFromPairId
  cases splitColon pid with
  | nil => rfl
  | cons a t =>
      cases t with
      | nil => rfl
      | cons b t2 =>
          have h1 := getEntityIn_id_congr h a
          have h2 := getEntityIn_id_congr h b
          cases hx : getEntityIn es a with
          | none =>
              cases hx' : getEntityIn es' a with
              | none => simp [hx, hx']
              | some ea' =>
                  rw [hx, hx'] at h1
                  simp at h1
          | some ea =>
              cases hx' : getEntityIn es' a with
              | none =>
                  rw [hx, hx'] at h1
                  simp at h1
              | some ea' =>
                  rw [hx, hx'] at h1
                  simp at h1
                  cases hy : getEntityIn es b with
                  | none =>
                      cases hy' : getEntityIn es' b with
                      | none => simp [hx, hx', hy, hy']
                      | some eb' =>
                          rw [hy, hy'] at h2
                          simp at h2
                  | some eb =>
                      cases hy' : getEntityIn es' b with
                      | none =>
                          rw [hy, hy'] at h2
                          simp at h2
                      | some eb' =>
                          rw [hy, hy'] at h2
                          simp at h2
                          simp [hx, hx', hy, hy', h1, h2]

theorem processCollisionEvents_congr (prev current : List String)
    {es es' : List CEntity} (h : List.Forall₂ rotScaleEquiv es es') :
    processCollisionEvents prev current es =
      processCollisionEvents prev current es' := by
  unfold processCollisionEvents
  dsimp only
  congr 1
  · refine List.filterMap_congr fun pid _ => ?_
    exact getEntitiesFromPairId_map_congr h pid
      (fun a b => if pid ∈ prev then ⟨.stay, a, b⟩ else ⟨.enter, a, b⟩)
  · refine List.filterMap_congr fun pid _ => ?_
    by_cases hc : pid ∈ current
    · simp [hc]
    · simp only [if_neg hc]
      exact getEntitiesFromPairId_map_congr h pid (fun a b => ⟨.exit, a, b⟩)

end Col

namespace W

theorem addSystem_cons (t : SystemW) (rest : List SystemW) (s : SystemW) :
    addSystem (t :: rest) s =
      if s.priority < t.priority then s :: t :: rest
      else t :: addSystem rest s := by
  by_cases h : s.priority < t.priority
  · simp [addSystem, List.findIdx_cons, h, insertAt]
  · simp [addSystem, List.findIdx_cons, h, insertAt]

theorem addSystem_eq_takeDrop (l : List SystemW) (s : SystemW) :
    addSystem l s =
      l.takeWhile (fun t => !(s.priority < t.priority)) ++
        s :: l.dropWhile (fun t => !(s.priority < t.priority)) := by
  induction l with
  | nil => rfl
  | cons t rest ih =>
      rw [addSystem_cons]
      by_cases h : s.priority < t.priority
      · simp [List.takeWhile_cons, List.dropWhile_cons, h]
      · simp [List.takeWhile_cons, List.dropWhile_cons, h, ih]

theorem mem_addSystem (l : List SystemW) (s x : SystemW) :
    x ∈ addSystem l s ↔ x ∈ l ∨ x = s := by
  rw [addSystem_eq_takeDrop]
  constructor
  · intro hx
    rcases List.mem_append.1 hx with h | h
    · exact Or.inl ((List.takeWhile_sublist _).subset h)
    · rcases List.mem_cons.1 h with rfl | h
      · exact Or.inr rfl
      · exact Or.inl ((List.dropWhile_sublist _).subset h)
  · intro hx
    rcases hx with h | rfl
    · rw [← List.takeWhile_append_dropWhile
        (p := fun t => !(s.priority < t.priority)) (l := l)] at h
      rcases List.mem_append.1 h with h | h
      · exact List.mem_append.2 (Or.inl h)
      · exact List.mem_append.2 (Or.inr (List.mem_cons_of_mem _ h))
    · exact List.mem_append.2 (Or.inr (List.mem_cons_self _ _))

theorem addSystem_sorted (l : List SystemW) (s : SystemW)
    (h : l.Pairwise (fun a b => a.priority ≤ b.priority)) :
    (addSystem l s).Pairwise (fun a b => a.priority ≤ b.priority) := by
  induction l with
  | nil => simp [addSystem, insertAt]
  | cons t rest ih =>
      rw [addSystem_cons]
      rcases List.pairwise_cons.1 h with ⟨ht, hrest⟩
      by_cases hp : s.priority < t.priority
      · rw [if_pos hp]
        refine List.pairwise_cons.2 ⟨?_, h⟩
        intro b hb
        rcases List.mem_cons.1 hb with rfl | hb
        · exact le_of_lt hp
        · exact (le_of_lt hp).trans (ht b hb)
      · rw [if_neg hp]
        refine List.pairwise_cons.2 ⟨?_, ih hrest⟩
        intro b hb
        rcases (mem_addSystem rest s b).1 hb with hb | rfl
        · exact ht b hb
        · exact not_lt.1 hp

theorem runSystems_obs_sids (dt : ℚ) (w : WorldW) (ss : List SystemW) :
    ((runSystems dt w ss).2).map Prod.fst =
      (ss.filter (fun s => s.active)).map SystemW.sid := by
  induction ss generalizing w with
  | nil => rfl
  | cons s rest ih =>
      by_cases h : s.active
      · simp [runSystems, h, List.filter_cons, ih]
      · simp [runSystems, h, List.filter_cons, ih]

theorem applyRequest_entities (w : WorldW) (r : Request) :
    (applyRequest w r).entities = w.entities := by
  cases r <;> rfl

theorem foldl_applyRequest_entities (rs : List Request) (w : WorldW) :
    (rs.foldl applyRequest w).entities = w.entities := by
  induction rs generalizing w with
  | nil => rfl
  | cons r rest ih => rw [List.foldl_cons, ih, applyRequest_entities]

theorem runSystems_fst_entities (dt : ℚ) (w : WorldW) (ss : List SystemW) :
    ((runSystems dt w ss).1).entities = w.entities := by
  induction ss generalizing w with
  | nil => rfl
  | cons s rest ih =>
      by_cases h : s.active
      · simp [runSystems, h, ih, foldl_applyRequest_entities]
      · simp [runSystems, h, ih]

theorem runSystems_obs_entities (dt : ℚ) (w : WorldW) (ss : List SystemW) :
    ∀ p ∈ (runSystems dt w ss).2, p.2 = w.entities := by
  induction ss generalizing w with
  | nil =>
      intro p hp
      simp [runSystems] at hp
  | cons s rest ih =>
      intro p hp
      by_cases h : s.active
      · simp only [runSystems, h, if_true] at hp
        rcases List.mem_cons.1 hp with rfl | hp
        · rfl
        · rw [ih _ _ hp, foldl_applyRequest_entities]
      · simp only [runSystems, h] at hp
        exact ih _ _ hp

theorem flushAdds_spec (reg : List (String × WEntity)) (toAdd : List WEntity)
    (listeners : List ℕ) :
    flushAdds reg toAdd listeners =
      (toAdd.foldl (fun r e => mapSet r e.id e) reg,
        toAdd.flatMap fun e => listeners.map fun l => ⟨l, e.id, true⟩) := by
  induction toAdd generalizing reg with
  | nil => rfl
  | cons e rest ih => simp [flushAdds, ih, List.foldl_cons, List.flatMap_cons]

theorem flushRemoves_spec (reg : List (String × WEntity))
    (toRemove : List String) (listeners : List ℕ) (h : toRemove.Nodup) :
    flushRemoves reg toRemove listeners =
      (toRemove.foldl mapDelete reg,
        (toRemove.filterMap fun i => mapGet reg i).flatMap
          fun e => listeners.map fun l => ⟨l, e.id, false⟩) := by
  induction toRemove generalizing reg with
  | nil => rfl
  | cons i rest ih =>
      rcases List.nodup_cons.1 h with ⟨hi, hrest⟩
      cases hg : mapGet reg i with
      | none =>
          rw [show flushRemoves reg (i :: rest) listeners =
              flushRemoves reg rest listeners from by simp [flushRemoves, hg]]
          rw [ih _ hrest]
          rw [List.foldl_cons, mapDelete_eq_of_mapGet_none reg i hg]
          simp [List.filterMap_cons, hg]
      | some e =>
          rw [show flushRemoves reg (i :: rest) listeners =
              ((flushRemoves (mapDelete reg i) rest listeners).1,
                listeners.map (fun l => ⟨l, e.id, false⟩) ++
                  (flushRemoves (mapDelete reg i) rest listeners).2) from by
            simp [flushRemoves, hg]]
          rw [ih _ hrest]
          have hcongr : rest.filterMap (fun i' => mapGet (mapDelete reg i) i') =
              rest.filterMap (fun i' => mapGet reg i') :=
            List.filterMap_congr fun a ha =>
              mapGet_mapDelete_ne reg a i (fun hai => hi (hai ▸ ha))
          simp [List.foldl_cons, List.filterMap_cons, hg, List.flatMap_cons,
            hcongr]

end W

/-! ## Claim theorems -/

/-- C4: every narrow-phase shape test uses strict inequality, so exact
touching is not a collision.  Circle/circle holds iff the Euclidean distance
between the offset centers is strictly below the sum of the radii
(equivalently, the radii sum is positive and the squared distance is
strictly below its square), and exact touching refutes it;
rectangle/rectangle holds iff the axis-aligned bounds have no separating gap
on either axis, strictly, and edge contact refutes it; circle/rectangle
holds iff the distance from the circle center to its clamp onto the
rectangle bounds is strictly below the radius, and exact touching refutes
it. -/
theorem narrow_phase_strict :
    ∀ (tA : Col.Transform) (cA : Col.Collider) (tB : Col.Transform)
      (cB : Col.Collider),
      (Col.checkCircleCircleCollision tA cA tB cB ↔
        Real.sqrt
            ((((tB.x : ℝ) + (cB.offsetX : ℝ)) -
                ((tA.x : ℝ) + (cA.offsetX : ℝ))) ^ 2 +
              (((tB.y : ℝ) + (cB.offsetY : ℝ)) -
                ((tA.y : ℝ) + (cA.offsetY : ℝ))) ^ 2) <
          (cA.radius : ℝ) + (cB.radius : ℝ)) ∧
      (Col.checkCircleCircleCollision tA cA tB cB ↔
        (0 < cA.radius + cB.radius ∧
          ((tB.x + cB.offsetX) - (tA.x + cA.offsetX)) *
              ((tB.x + cB.offsetX) - (tA.x + cA.offsetX)) +
            ((tB.y + cB.offsetY) - (tA.y + cA.offsetY)) *
              ((tB.y + cB.offsetY) - (tA.y + cA.offsetY)) <
            (cA.radius + cB.radius) * (cA.radius + cB.radius))) ∧
      (((tB.x + cB.offsetX) - (tA.x + cA.offsetX)) *
            ((tB.x + cB.offsetX) - (tA.x + cA.offsetX)) +
          ((tB.y + cB.offsetY) - (tA.y + cA.offsetY)) *
            ((tB.y + cB.offsetY) - (tA.y + cA.offsetY)) =
          (cA.radius + cB.radius) * (cA.radius + cB.radius) →
        ¬ Col.checkCircleCircleCollision tA cA tB cB) ∧
      (Col.checkRectRectCollision tA cA tB cB ↔
        (¬((cA.getBounds tA).x + (cA.getBounds tA).width ≤
              (cB.getBounds tB).x ∨
            (cB.getBounds tB).x + (cB.getBounds tB).width ≤
              (cA.getBounds tA).x) ∧
          ¬((cA.getBounds tA).y + (cA.getBounds tA).height ≤
              (cB.getBounds tB).y ∨
            (cB.getBounds tB).y + (cB.getBounds tB).height ≤
              (cA.getBounds tA).y))) ∧
      ((cA.getBounds tA).x + (cA.getBounds tA).width = (cB.getBounds tB).x →
        ¬ Col.checkRectRectCollision tA cA tB cB) ∧
      (Col.checkCircleRectCollision tA cA tB cB ↔
        (0 < cA.radius ∧
          (let circleX := tA.x + cA.offsetX
           let circleY := tA.y + cA.offsetY
           let rectBounds := cB.getBounds tB
           let closestX :=
             max rectBounds.x (min circleX (rectBounds.x + rectBounds.width))
           let closestY :=
             max rectBounds.y (min circleY (rectBounds.y + rectBounds.height))
           (closestX - circleX) * (closestX - circleX) +
             (closestY - circleY) * (closestY - circleY) <
             cA.radius * cA.radius))) ∧
      ((let circleX := tA.x + cA.offsetX
        let circleY := tA.y + cA.offsetY
        let rectBounds := cB.getBounds tB
        let closestX :=
          max rectBounds.x (min circleX (rectBounds.x + rectBounds.width))
        let closestY :=
          max rectBounds.y (min circleY (rectBounds.y + rectBounds.height))
        (closestX - circleX) * (closestX - circleX) +
          (closestY - circleY) * (closestY - circleY) =
          cA.radius * cA.radius) →
        ¬ Col.checkCircleRectCollision tA cA tB cB) := by
  intro tA cA tB cB
  refine ⟨?_, Col.checkCircleCircle_iff_sq tA cA tB cB, ?_, ?_, ?_,
    Col.checkCircleRect_iff_sq tA cA tB cB, ?_⟩
  · have h1 : ((((tB.x + cB.offsetX) - (tA.x + cA.offsetX)) *
          ((tB.x + cB.offsetX) - (tA.x + cA.offsetX)) +
        ((tB.y + cB.offsetY) - (tA.y + cA.offsetY)) *
          ((tB.y + cB.offsetY) - (tA.y + cA.offsetY)) : ℚ) : ℝ) =
        (((tB.x : ℝ) + (cB.offsetX : ℝ)) -
            ((tA.x : ℝ) + (cA.offsetX : ℝ))) ^ 2 +
          (((tB.y : ℝ) + (cB.offsetY : ℝ)) -
            ((tA.y : ℝ) + (cA.offsetY : ℝ))) ^ 2 := by
      push_cast
      ring
    have h2 : ((cA.radius + cB.radius : ℚ) : ℝ) =
        (cA.radius : ℝ) + (cB.radius : ℝ) := by
      push_cast
      ring
    simp only [Col.checkCircleCircleCollision]
    rw [h1, h2]
  · intro h hc
    have h2 := (Col.checkCircleCircle_iff_sq tA cA tB cB).1 hc
    rw [h] at h2
    exact absurd h2.2 (lt_irrefl _)
  · simp only [Col.checkRectRectCollision, not_or, not_le]
    constructor
    · rintro ⟨h1, h2, h3, h4⟩
      exact ⟨⟨h2, h1⟩, ⟨h4, h3⟩⟩
    · rintro ⟨⟨h2, h1⟩, ⟨h4, h3⟩⟩
      exact ⟨h1, h2, h3, h4⟩
  · intro h hc
    obtain ⟨-, h2, -, -⟩ := hc
    rw [h] at h2
    exact absurd h2 (lt_irrefl _)
  · intro h hc
    have h2 := (Col.checkCircleRect_iff_sq tA cA tB cB).1 hc
    simp only at h h2
    rw [h] at h2
    exact absurd h2.2 (lt_irrefl _)

/-- C4 witness: the touching cases evaluated — two radius-16 circles with
centers 32 apart, two 50-wide rectangles sharing an edge, and a circle whose
clamped distance to a rectangle equals its radius — none collide. -/
theorem narrow_phase_strict_witness :
    ¬ Col.checkCircleCircleCollision (Col.transformAt 0 0) Col.circ16
        (Col.transformAt 32 0) Col.circ16 ∧
      ¬ Col.checkRectRectCollision (Col.transformAt 100 100) Col.rect50
          (Col.transformAt 150 100) Col.rect50 ∧
      ¬ Col.checkCircleRectCollision (Col.transformAt 0 0) Col.circ16
          (Col.transformAt 16 (-25)) Col.rect50 := by
  refine ⟨(narrow_phase_strict _ _ _ _).2.2.1 ?_,
    (narrow_phase_strict _ _ _ _).2.2.2.2.1 ?_,
    (narrow_phase_strict _ _ _ _).2.2.2.2.2.2 ?_⟩
  · norm_num [Col.transformAt, Col.circ16, Col.Collider.mk']
  · norm_num [Col.transformAt, Col.rect50, Col.Collider.mk',
      Col.Collider.getBounds]
  · norm_num [Col.transformAt, Col.circ16, Col.rect50, Col.Collider.mk',
      Col.Collider.getBounds]

/-- C5: a canonical pair id is recorded by the brute-force detection only
when the layer/mask test passes symmetrically — collider A's mask
bit-intersects collider B's layer and vice versa — and the shapes collide;
in particular the overlapping rectangles with layer 1/mask 2 and layer
4/mask 8 produce no colliding pair and no collision event of any kind. -/
theorem layer_mask_symmetric_gate :
    (∀ (es : List Col.CEntity) (pid : String),
        pid ∈ Col.bruteForceCollisionDetection es →
        ∃ a b, List.Sublist [a, b] es ∧ ∃ cA cB,
          a.collider = some cA ∧ b.collider = some cB ∧
          cA.canCollideWith cB.collisionLayer ∧
          cB.canCollideWith cA.collisionLayer ∧
          Col.checkCollision a b ∧ pid = Col.getCollisionPairId a b) ∧
    Col.colUpdate true 10 5 Col.scenarioLayered [] = ([], []) := by
  constructor
  · intro es pid h
    have h' := (Col.mem_bruteForceAux [] es pid).1 h
    simpa using h'
  · decide

/-- C5 witness: the overlapping default-layer rectangles do record the pair
id `"a:b"`, and the theorem then yields the symmetric layer/mask facts for
that pair. -/
theorem layer_mask_symmetric_gate_witness :
    ("a:b" ∈ Col.bruteForceCollisionDetection Col.scenarioOverlap) ∧
      ∃ a b, List.Sublist [a, b] Col.scenarioOverlap ∧ ∃ cA cB,
        a.collider = some cA ∧ b.collider = some cB ∧
        cA.canCollideWith cB.collisionLayer ∧
        cB.canCollideWith cA.collisionLayer ∧
        Col.checkCollision a b ∧ "a:b" = Col.getCollisionPairId a b := by
  have hmem : "a:b" ∈ Col.bruteForceCollisionDetection Col.scenarioOverlap := by
    norm_num +decide [Col.bruteForceCollisionDetection, Col.bruteForceAux,
      Col.bruteForceInner, Col.scenarioOverlap, Col.entRectA, Col.entRectB,
      Col.transformAt, Col.rect50, Col.Collider.mk', Col.Collider.canCollideWith,
      Col.checkCollision, Col.checkShapes, Col.checkRectRectCollision,
      Col.Collider.getBounds, Col.getCollisionPairId, Col.jsStrLt,
      Col.jsStrLtChars, setAdd]
  exact ⟨hmem, layer_mask_symmetric_gate.1 Col.scenarioOverlap "a:b" hmem⟩

/-- C1: per tick, the event diff against `previousPairs` is exact: for a
canonical pair id whose two entities are still in the world (and which is
the unique pair id resolving to them among the tick's pair sets), exactly
one ENTER event is dispatched when the id is newly colliding, exactly one
STAY event when it is in both sets, and exactly one EXIT event when it is no
longer colliding; afterwards the system's `collisionPairs` state is exactly
the current tick's colliding set; and the four-tick
apart/overlap/overlap/apart rectangle scenario dispatches exactly the
sequence none, ENTER, STAY, EXIT. -/
theorem collision_event_diff :
    (∀ (world : List Col.CEntity) (prev current : List String)
        (a b : Col.CEntity) (pid : String), prev.Nodup → current.Nodup →
        Col.getEntitiesFromPairId world pid = some (a, b) →
        (∀ pid' ∈ current ++ prev,
          Col.getEntitiesFromPairId world pid' = some (a, b) → pid' = pid) →
        ((Col.processCollisionEvents prev current world).count
            ⟨.enter, a.id, b.id⟩ =
          if pid ∈ current ∧ pid ∉ prev then 1 else 0) ∧
        ((Col.processCollisionEvents prev current world).count
            ⟨.stay, a.id, b.id⟩ =
          if pid ∈ current ∧ pid ∈ prev then 1 else 0) ∧
        ((Col.processCollisionEvents prev current world).count
            ⟨.exit, a.id, b.id⟩ =
          if pid ∈ prev ∧ pid ∉ current then 1 else 0)) ∧
    (∀ (q : Bool) (n l : ℕ) (es : List Col.CEntity) (prev : List String),
        (Col.colUpdate q n l es prev).1 =
          Col.bruteForceCollisionDetection (es.filter Col.collidableFilter)) ∧
    (Col.colUpdate true 10 5 Col.scenarioApart [] = ([], []) ∧
      Col.colUpdate true 10 5 Col.scenarioOverlap [] =
        (["a:b"], [⟨.enter, "a", "b"⟩]) ∧
      Col.colUpdate true 10 5 Col.scenarioOverlap ["a:b"] =
        (["a:b"], [⟨.stay, "a", "b"⟩]) ∧
      Col.colUpdate true 10 5 Col.scenarioApart ["a:b"] =
        ([], [⟨.exit, "a", "b"⟩])) := by
  refine ⟨?_, ?_, ?_, ?_, ?_, ?_⟩
  · intro world prev current a b pid hnp hnc hres huniq
    exact Col.processCollisionEvents_counts world prev current hnp hnc
      a b pid hres huniq
  · intro q n l es prev
    simp only [Col.colUpdate, ite_self]
  · norm_num +decide [Col.colUpdate, Col.collidableFilter,
      Col.bruteForceCollisionDetection, Col.bruteForceAux, Col.bruteForceInner,
      List.filter, Col.Collider.canCollideWith, Col.getCollisionPairId,
      Col.jsStrLt, Col.jsStrLtChars, setAdd, Col.processCollisionEvents,
      Col.getEntitiesFromPairId, Col.splitColon, Col.splitColonAux,
      Col.getEntityIn, List.find?, List.filterMap, Col.checkCollision,
      Col.checkShapes, Col.checkRectRectCollision, Col.Collider.getBounds,
      Col.Collider.mk', Col.scenarioApart, Col.entRectA, Col.entRectB,
      Col.transformAt, Col.rect50]
  · norm_num +decide [Col.colUpdate, Col.collidableFilter,
      Col.bruteForceCollisionDetection, Col.bruteForceAux, Col.bruteForceInner,
      List.filter, Col.Collider.canCollideWith, Col.getCollisionPairId,
      Col.jsStrLt, Col.jsStrLtChars, setAdd, Col.processCollisionEvents,
      Col.getEntitiesFromPairId, Col.splitColon, Col.splitColonAux,
      Col.getEntityIn, List.find?, List.filterMap, Col.checkCollision,
      Col.checkShapes, Col.checkRectRectCollision, Col.Collider.getBounds,
      Col.Collider.mk', Col.scenarioOverlap, Col.entRectA, Col.entRectB,
      Col.transformAt, Col.rect50]
  · norm_num +decide [Col.colUpdate, Col.collidableFilter,
      Col.bruteForceCollisionDetection, Col.bruteForceAux, Col.bruteForceInner,
      List.filter, Col.Collider.canCollideWith, Col.getCollisionPairId,
      Col.jsStrLt, Col.jsStrLtChars, setAdd, Col.processCollisionEvents,
      Col.getEntitiesFromPairId, Col.splitColon, Col.splitColonAux,
      Col.getEntityIn, List.find?, List.filterMap, Col.checkCollision,
      Col.checkShapes, Col.checkRectRectCollision, Col.Collider.getBounds,
      Col.Collider.mk', Col.scenarioOverlap, Col.entRectA, Col.entRectB,
      Col.transformAt, Col.rect50]
  · norm_num +decide [Col.colUpdate, Col.collidableFilter,
      Col.bruteForceCollisionDetection, Col.bruteForceAux, Col.bruteForceInner,
      List.filter, Col.Collider.canCollideWith, Col.getCollisionPairId,
      Col.jsStrLt, Col.jsStrLtChars, setAdd, Col.processCollisionEvents,
      Col.getEntitiesFromPairId, Col.splitColon, Col.splitColonAux,
      Col.getEntityIn, List.find?, List.filterMap, Col.checkCollision,
      Col.checkShapes, Col.checkRectRectCollision, Col.Collider.getBounds,
      Col.Collider.mk', Col.scenarioApart, Col.entRectA, Col.entRectB,
      Col.transformAt, Col.rect50]

/-- C1 witness: the count characterization applied to the overlap tick —
previous pairs empty, current pairs `["a:b"]`, the pair resolving to the two
rectangle entities — yields exactly one ENTER event. -/
theorem collision_event_diff_witness :
    ([] : List String).Nodup ∧ (["a:b"] : List String).Nodup ∧
      Col.getEntitiesFromPairId Col.scenarioOverlap "a:b" =
        some (Col.entRectA 100 100, Col.entRectB 120 120) ∧
      (∀ pid' ∈ (["a:b"] ++ ([] : List String)),
        Col.getEntitiesFromPairId Col.scenarioOverlap pid' =
          some (Col.entRectA 100 100, Col.entRectB 120 120) →
        pid' = "a:b") ∧
      ((Col.processCollisionEvents [] ["a:b"] Col.scenarioOverlap).count
          ⟨.enter, (Col.entRectA 100 100).id, (Col.entRectB 120 120).id⟩ =
        if "a:b" ∈ ["a:b"] ∧ "a:b" ∉ ([] : List String) then 1 else 0) := by
  have hres : Col.getEntitiesFromPairId Col.scenarioOverlap "a:b" =
      some (Col.entRectA 100 100, Col.entRectB 120 120) := by decide
  have huniq : ∀ pid' ∈ (["a:b"] ++ ([] : List String)),
      Col.getEntitiesFromPairId Col.scenarioOverlap pid' =
        some (Col.entRectA 100 100, Col.entRectB 120 120) →
      pid' = "a:b" := by decide
  exact ⟨List.nodup_nil, by decide, hres, huniq,
    (collision_event_diff.1 Col.scenarioOverlap [] ["a:b"]
      (Col.entRectA 100 100) (Col.entRectB 120 120) "a:b"
      List.nodup_nil (by decide) hres huniq).1⟩

/-- C9: collision results are independent of transform rotation and scale:
if two runs differ only in the `rotation`, `scaleX` or `scaleY` fields of
any entities' transforms, then every pairwise collision verdict is
identical, and a whole `CollisionSystem.update` tick — computed pairs and
all dispatched events — is identical, because collision bounds derive only
from transform position, collider offset, and shape dimensions. -/
theorem rotation_scale_independent :
    (∀ (eA eA' eB eB' : Col.CEntity),
        Col.rotScaleEquiv eA eA' → Col.rotScaleEquiv eB eB' →
        (Col.checkCollision eA eB ↔ Col.checkCollision eA' eB')) ∧
    (∀ (q : Bool) (n l : ℕ) (prev : List String)
        (es es' : List Col.CEntity),
        List.Forall₂ Col.rotScaleEquiv es es' →
        Col.colUpdate q n l es prev = Col.colUpdate q n l es' prev) := by
  constructor
  · exact fun eA eA' eB eB' hA hB => Col.checkCollision_congr eA eA' eB eB' hA hB
  · intro q n l prev es es' h
    have hf := Col.forall₂_filter_collidable h
    have hbf := Col.bruteForceAux_congr hf []
    have hpe : ∀ cur, Col.processCollisionEvents prev cur es =
        Col.processCollisionEvents prev cur es' :=
      fun cur => Col.processCollisionEvents_congr prev cur h
    simp only [Col.colUpdate, ite_self, Col.bruteForceCollisionDetection]
    rw [hbf, hpe]

/-- C9 witness: rotating and scaling both overlapping rectangles changes
neither the pairwise verdict nor the whole tick's result. -/
theorem rotation_scale_independent_witness :
    Col.rotScaleEquiv (Col.entRectA 100 100) Col.entRectARot ∧
      Col.rotScaleEquiv (Col.entRectB 120 120) Col.entRectBRot ∧
      (Col.checkCollision (Col.entRectA 100 100) (Col.entRectB 120 120) ↔
        Col.checkCollision Col.entRectARot Col.entRectBRot) ∧
      List.Forall₂ Col.rotScaleEquiv Col.scenarioOverlap
        [Col.entRectARot, Col.entRectBRot] ∧
      Col.colUpdate true 10 5 Col.scenarioOverlap [] =
        Col.colUpdate true 10 5 [Col.entRectARot, Col.entRectBRot] [] := by
  have hA : Col.rotScaleEquiv (Col.entRectA 100 100) Col.entRectARot :=
    ⟨rfl, rfl, rfl, rfl, rfl⟩
  have hB : Col.rotScaleEquiv (Col.entRectB 120 120) Col.entRectBRot :=
    ⟨rfl, rfl, rfl, rfl, rfl⟩
  have hall : List.Forall₂ Col.rotScaleEquiv Col.scenarioOverlap
      [Col.entRectARot, Col.entRectBRot] :=
    List.Forall₂.cons hA (List.Forall₂.cons hB List.Forall₂.nil)
  exact ⟨hA, hB, rotation_scale_independent.1 _ _ _ _ hA hB, hall,
    rotation_scale_independent.2 true 10 5 [] _ _ hall⟩

/-- C2: `World.update` first flushes every buffered addition into the
registry in call order, then flushes buffered removals (ids absent from the
registry are skipped), and only then runs the systems: the notification
stream is exactly one add notification per buffered entity per listener (in
call order) followed by one removal notification per actually-removed entity
per listener; every executed system observes the identical post-flush
registry; and the registry after the whole tick is still the post-flush
registry — requests issued by systems during the tick only reach the
buffers. -/
theorem world_update_flush_then_run :
    ∀ (w : W.WorldW) (dt : ℚ), w.entitiesToRemove.Nodup →
      (W.update w dt).2.1 =
          (w.entitiesToAdd.flatMap fun e =>
            w.entityListeners.map fun l => ⟨l, e.id, true⟩) ++
          ((w.entitiesToRemove.filterMap fun i =>
              mapGet (w.entitiesToAdd.foldl (fun r e => mapSet r e.id e)
                w.entities) i).flatMap fun e =>
            w.entityListeners.map fun l => ⟨l, e.id, false⟩) ∧
        (∀ p ∈ (W.update w dt).2.2,
          p.2 = w.entitiesToRemove.foldl mapDelete
            (w.entitiesToAdd.foldl (fun r e => mapSet r e.id e) w.entities)) ∧
        (W.update w dt).1.entities =
          w.entitiesToRemove.foldl mapDelete
            (w.entitiesToAdd.foldl (fun r e => mapSet r e.id e) w.entities) := by
  intro w dt h
  have hA := W.flushAdds_spec w.entities w.entitiesToAdd w.entityListeners
  have hR := W.flushRemoves_spec
    (w.entitiesToAdd.foldl (fun r e => mapSet r e.id e) w.entities)
    w.entitiesToRemove w.entityListeners h
  refine ⟨?_, ?_, ?_⟩
  · show ((W.flushAdds w.entities w.entitiesToAdd w.entityListeners).2 ++
        (W.flushRemoves
          (W.flushAdds w.entities w.entitiesToAdd w.entityListeners).1
          w.entitiesToRemove w.entityListeners).2) = _
    rw [hA, hR]
  · intro p hp
    have hobs : p ∈ (W.runSystems dt
        { w with
            entities := (W.flushRemoves
              (W.flushAdds w.entities w.entitiesToAdd w.entityListeners).1
              w.entitiesToRemove w.entityListeners).1,
            entitiesToAdd := [], entitiesToRemove := [] }
        w.systems).2 := hp
    have := W.runSystems_obs_entities dt _ w.systems p hobs
    rw [this]
    show (W.flushRemoves
        (W.flushAdds w.entities w.entitiesToAdd w.entityListeners).1
        w.entitiesToRemove w.entityListeners).1 = _
    rw [hA, hR]
  · show ((W.runSystems dt
        { w with
            entities := (W.flushRemoves
              (W.flushAdds w.entities w.entitiesToAdd w.entityListeners).1
              w.entitiesToRemove w.entityListeners).1,
            entitiesToAdd := [], entitiesToRemove := [] }
        w.systems).1).entities = _
    rw [W.runSystems_fst_entities]
    show (W.flushRemoves
        (W.flushAdds w.entities w.entitiesToAdd w.entityListeners).1
        w.entitiesToRemove w.entityListeners).1 = _
    rw [hA, hR]

/-- C2 witness: the theorem applied to the demo world (one registered
entity, one buffered addition, one present and one unknown buffered
removal, two listeners): the notification stream is the two add
notifications for `"y"` followed by the two removal notifications for
`"x"`; the unknown id `"zz"` produces none. -/
theorem world_update_flush_then_run_witness :
    W.demoWorld.entitiesToRemove.Nodup ∧
      (W.update W.demoWorld 1).2.1 =
        [⟨0, "y", true⟩, ⟨1, "y", true⟩, ⟨0, "x", false⟩, ⟨1, "x", false⟩] := by
  refine ⟨by decide, ?_⟩
  rw [(world_update_flush_then_run W.demoWorld 1 (by decide)).1]
  decide

/-- C10: the `CollisionSystem` constructor parameters `useQuadTree`,
`maxObjectsPerNode` and `maxLevels` have no effect on behavior: for every
world state and previous-pairs state, both branches of the quad-tree
conditional invoke the identical brute-force pairwise detection, so the
computed colliding-pair set and the dispatched events coincide for every
choice of the three parameters. -/
theorem colUpdate_params_no_effect :
    ∀ (q1 q2 : Bool) (n1 n2 l1 l2 : ℕ) (es : List Col.CEntity)
      (pairs : List String),
      Col.colUpdate q1 n1 l1 es pairs = Col.colUpdate q2 n2 l2 es pairs := by
  intro q1 q2 n1 n2 l1 l2 es pairs
  simp only [Col.colUpdate, ite_self]

/-- C3: the system list is kept sorted by priority with insertion-stable
ties: inserting preserves sortedness; `addSystem` inserts exactly at the
first position whose existing priority is strictly greater (the
takeWhile/dropWhile characterization); `World.update` runs precisely the
active systems in list order; adding priorities 50, 5, 20 yields execution
order 5, 20, 50; and a later priority-20 system lands after the existing
priority-20 one. -/
theorem addSystem_priority_order :
    (∀ (l : List W.SystemW) (s : W.SystemW),
        l.Pairwise (fun a b => a.priority ≤ b.priority) →
        (W.addSystem l s).Pairwise (fun a b => a.priority ≤ b.priority)) ∧
    (∀ (l : List W.SystemW) (s : W.SystemW),
        W.addSystem l s =
          l.takeWhile (fun t => !(s.priority < t.priority)) ++
            s :: l.dropWhile (fun t => !(s.priority < t.priority))) ∧
    (∀ (w : W.WorldW) (dt : ℚ),
        ((W.update w dt).2.2).map Prod.fst =
          (w.systems.filter (fun s => s.active)).map W.SystemW.sid) ∧
    (W.demoSystems.map W.SystemW.sid = [1, 2, 0] ∧
      W.demoSystems.map W.SystemW.priority = [5, 20, 50]) ∧
    (W.addSystem W.demoSystems (W.sysOfPriority 3 20)).map W.SystemW.sid =
      [1, 2, 3, 0] := by
  refine ⟨W.addSystem_sorted, W.addSystem_eq_takeDrop, ?_, ⟨rfl, rfl⟩, rfl⟩
  intro w dt
  exact W.runSystems_obs_sids dt _ w.systems

/-- C3 witness: the sortedness-preservation part applied at the empty system
list and the demo priority-50 system. -/
theorem addSystem_priority_order_witness :
    ([] : List W.SystemW).Pairwise (fun a b => a.priority ≤ b.priority) ∧
    (W.addSystem [] (W.sysOfPriority 0 50)).Pairwise
      (fun a b => a.priority ≤ b.priority) :=
  ⟨List.Pairwise.nil,
    addSystem_priority_order.1 [] (W.sysOfPriority 0 50) List.Pairwise.nil⟩

/-- C8: `World.removeEntity` is idempotent and tolerant: a second buffered
removal of the same id before a flush leaves the world state — and therefore
the next `update`'s outcome and notifications — exactly as after one call;
at flush time an id absent from the registry is skipped with no notification
and no registry change; the embedding is total, so no call raises. -/
theorem removeEntity_idempotent_and_tolerant :
    (∀ (w : W.WorldW) (entityId : String),
        W.removeEntity (W.removeEntity w entityId) entityId =
          W.removeEntity w entityId) ∧
    (∀ (w : W.WorldW) (entityId : String) (dt : ℚ),
        W.update (W.removeEntity (W.removeEntity w entityId) entityId) dt =
          W.update (W.removeEntity w entityId) dt) ∧
    (∀ (reg : List (String × W.WEntity)) (entityId : String)
        (rest : List String) (listeners : List ℕ),
        mapGet reg entityId = none →
        W.flushRemoves reg (entityId :: rest) listeners =
          W.flushRemoves reg rest listeners) ∧
    (∀ (reg : List (String × W.WEntity)) (entityId : String)
        (listeners : List ℕ),
        mapGet reg entityId = none →
        W.flushRemoves reg [entityId] listeners = (reg, [])) := by
  refine ⟨?_, ?_, ?_, ?_⟩
  · intro w entityId
    simp [W.removeEntity, setAdd_idem]
  · intro w entityId dt
    rw [show W.removeEntity (W.removeEntity w entityId) entityId =
        W.removeEntity w entityId from by simp [W.removeEntity, setAdd_idem]]
  · intro reg entityId rest listeners h
    simp [W.flushRemoves, h]
  · intro reg entityId listeners h
    simp [W.flushRemoves, h]

/-- C8 witness: removing the unknown id `"q"` from an empty registry is
skipped with no notification and no registry change. -/
theorem removeEntity_idempotent_and_tolerant_witness :
    mapGet ([] : List (String × W.WEntity)) "q" = none ∧
    W.flushRemoves ([] : List (String × W.WEntity)) ["q"] [0] = ([], []) :=
  ⟨rfl, removeEntity_idempotent_and_tolerant.2.2.2 [] "q" [0] rfl⟩

/-- C6 counterexample: with `compT1` already attached to `entE0` under type
identifier `"T"`, attaching `compT2` displaces the stored component but
leaves its owner back-reference pointing at `"e1"` — the claim that
`addComponent` clears the replaced component's owner back-reference is
false. -/
theorem addComponent_replaced_owner_kept :
    (ECS.entE0.addComponent ECS.compT1).addComponentReplaced ECS.compT2 =
        some ⟨"T", some "e1", 0, 0, 1⟩ ∧
      ((ECS.entE0.addComponent ECS.compT1).addComponentReplaced
          ECS.compT2).map ECS.Comp.owner ≠ some none := by
  decide

/-- C6 amended: `Entity.addComponent` replaces any existing component under
the same type identifier (silent overwrite, `hasComponent` stays true,
`getComponent` returns only the newest) and sets the new component's owner
back-reference to the entity; the replaced component is left untouched, its
owner back-reference still pointing at the entity rather than being
cleared. -/
theorem addComponent_overwrite_semantics :
    ∀ (e : ECS.EntityE) (c : ECS.Comp),
      (e.addComponent c).getComponent c.ctype =
          some { c with owner := some e.id } ∧
        (e.addComponent c).hasComponent c.ctype = true ∧
        e.addComponentReplaced c = e.getComponent c.ctype := by
  intro e c
  refine ⟨?_, ?_, rfl⟩
  · simp [ECS.EntityE.addComponent, ECS.EntityE.getComponent, mapGet_mapSet_self]
  · simp [ECS.EntityE.addComponent, ECS.EntityE.hasComponent, mapGet_mapSet_self]

/-- C7: evaluating the source embedding at a concrete attach/detach shows the
lifecycle hooks are never invoked: after `addComponent` the stored
component's `initCalls` counter is still 0, after `removeComponent` the
detached component's `destroyCalls` counter is still 0, and the source
`addComponent` disagrees with the spec-modelled variant that does invoke
`init()` — contradicting the documented contract of the `Component` base
class. -/
theorem lifecycle_hooks_not_invoked :
    (ECS.entE0.addComponent ECS.compT1).getComponent "T" =
        some ⟨"T", some "e1", 0, 0, 1⟩ ∧
      ((ECS.entE0.addComponent ECS.compT1).getComponent "T").map
          ECS.Comp.initCalls = some 0 ∧
      ((ECS.entE0.addComponent ECS.compT1).removedComponent "T").map
          ECS.Comp.destroyCalls = some 0 ∧
      (ECS.entE0.addComponentSpec ECS.compT1).1 ≠
        ECS.entE0.addComponent ECS.compT1 := by
  decide

end AircraftWeb
